import Mathlib

/-!
Verification of the interactive spatial-rendering and incremental-loading
pipeline of the AI-map scatter-plot application.

The development shallowly embeds the TypeScript source:

* the streaming loader worker (`processPointStream`, `pointStreamFinished`,
  `parseEmbeddingString`, `self.onmessage`);
* the `Embedding` class state machine for the dispersal animation
  (`startDispersalAnimation`, `finalizeDispersalAnimation`,
  `loaderWorkerMessageHandler`) and the hover query (`mouseoverPoint`);
* the WebGL scatter renderer (`drawScatterPlot`: point-width computation and
  image aspect-ratio caching);
* the search worker message dispatch.

JavaScript numbers are modelled as exact rationals (`ℚ`); the two point-width
formulas, which use transcendental logarithms, are modelled over `ℝ`.
Side effects (worker messages, WebGL buffer writes, redraws) are modelled as
explicit action traces returned next to the successor state.
-/

namespace AIMap

/-! ### JSON values and a model of `JSON.parse`

`parseEmbeddingString` in the loader worker calls the JavaScript builtin
`JSON.parse`, so we embed JSON values and a JSON parser.  JSON numbers are
modelled as exact rationals (JavaScript would round them to binary floats;
none of the settled claims depends on that rounding). -/

inductive JVal : Type where
  | jnull : JVal
  | jbool : Bool → JVal
  | jnum : ℚ → JVal
  | jstr : String → JVal
  | jarr : List JVal → JVal
  | jobj : List (String × JVal) → JVal
  deriving Repr, Inhabited

mutual

/-- Boolean equality on JSON values (structural over the nested inductive). -/
def JVal.beq : JVal → JVal → Bool
  | .jnull, .jnull => true
  | .jbool a, .jbool b => decide (a = b)
  | .jnum a, .jnum b => decide (a = b)
  | .jstr a, .jstr b => decide (a = b)
  | .jarr a, .jarr b => JVal.beqList a b
  | .jobj a, .jobj b => JVal.beqObj a b
  | _, _ => false
  termination_by structural a => a

/-- Boolean equality on lists of JSON values. -/
def JVal.beqList : List JVal → List JVal → Bool
  | [], [] => true
  | a :: as, b :: bs => JVal.beq a b && JVal.beqList as bs
  | _, _ => false
  termination_by structural as => as

/-- Boolean equality on JSON object member lists. -/
def JVal.beqObj : List (String × JVal) → List (String × JVal) → Bool
  | [], [] => true
  | (k, v) :: as, (k2, v2) :: bs =>
    decide (k = k2) && JVal.beq v v2 && JVal.beqObj as bs
  | _, _ => false
  termination_by structural as => as

end

mutual

theorem JVal.beq_iff : ∀ a b : JVal, JVal.beq a b = true ↔ a = b
  | .jnull, .jnull => by simp [JVal.beq]
  | .jbool _, .jbool _ => by simp [JVal.beq]
  | .jnum _, .jnum _ => by simp [JVal.beq]
  | .jstr _, .jstr _ => by simp [JVal.beq]
  | .jarr a, .jarr b => by simp [JVal.beq, JVal.beqList_iff a b]
  | .jobj a, .jobj b => by simp [JVal.beq, JVal.beqObj_iff a b]
  | .jnull, .jbool _ => by simp [JVal.beq]
  | .jnull, .jnum _ => by simp [JVal.beq]
  | .jnull, .jstr _ => by simp [JVal.beq]
  | .jnull, .jarr _ => by simp [JVal.beq]
  | .jnull, .jobj _ => by simp [JVal.beq]
  | .jbool _, .jnull => by simp [JVal.beq]
  | .jbool _, .jnum _ => by simp [JVal.beq]
  | .jbool _, .jstr _ => by simp [JVal.beq]
  | .jbool _, .jarr _ => by simp [JVal.beq]
  | .jbool _, .jobj _ => by simp [JVal.beq]
  | .jnum _, .jnull => by simp [JVal.beq]
  | .jnum _, .jbool _ => by simp [JVal.beq]
  | .jnum _, .jstr _ => by simp [JVal.beq]
  | .jnum _, .jarr _ => by simp [JVal.beq]
  | .jnum _, .jobj _ => by simp [JVal.beq]
  | .jstr _, .jnull => by simp [JVal.beq]
  | .jstr _, .jbool _ => by simp [JVal.beq]
  | .jstr _, .jnum _ => by simp [JVal.beq]
  | .jstr _, .jarr _ => by simp [JVal.beq]
  | .jstr _, .jobj _ => by simp [JVal.beq]
  | .jarr _, .jnull => by simp [JVal.beq]
  | .jarr _, .jbool _ => by simp [JVal.beq]
  | .jarr _, .jnum _ => by simp [JVal.beq]
  | .jarr _, .jstr _ => by simp [JVal.beq]
  | .jarr _, .jobj _ => by simp [JVal.beq]
  | .jobj _, .jnull => by simp [JVal.beq]
  | .jobj _, .jbool _ => by simp [JVal.beq]
  | .jobj _, .jnum _ => by simp [JVal.beq]
  | .jobj _, .jstr _ => by simp [JVal.beq]
  | .jobj _, .jarr _ => by simp [JVal.beq]

theorem JVal.beqList_iff : ∀ as bs : List JVal, JVal.beqList as bs = true ↔ as = bs
  | [], [] => by simp [JVal.beqList]
  | [], _ :: _ => by simp [JVal.beqList]
  | _ :: _, [] => by simp [JVal.beqList]
  | a :: as, b :: bs => by
    simp [JVal.beqList, JVal.beq_iff a b, JVal.beqList_iff as bs]

theorem JVal.beqObj_iff :
    ∀ as bs : List (String × JVal), JVal.beqObj as bs = true ↔ as = bs
  | [], [] => by simp [JVal.beqObj]
  | [], _ :: _ => by simp [JVal.beqObj]
  | _ :: _, [] => by simp [JVal.beqObj]
  | (k, v) :: as, (k2, v2) :: bs => by
    simp [JVal.beqObj, JVal.beq_iff v v2, JVal.beqObj_iff as bs, and_assoc]

end

instance : DecidableEq JVal := fun a b => decidable_of_iff _ (JVal.beq_iff a b)

/-- JSON whitespace skip: space, tab, line feed, carriage return. -/
def skipWs : List Char → List Char
  | ' ' :: cs => skipWs cs
  | '\t' :: cs => skipWs cs
  | '\n' :: cs => skipWs cs
  | '\r' :: cs => skipWs cs
  | cs => cs

/-- Digits of a decimal literal accumulated into a natural number. -/
def digitsToNat (ds : List Char) : ℕ :=
  ds.foldl (fun a c => a * 10 + (c.toNat - 48)) 0

/-- Splits a character list into its leading run of decimal digits and the
rest. -/
def takeDigits : List Char → List Char × List Char
  | [] => ([], [])
  | c :: cs =>
    if c.isDigit then
      let p := takeDigits cs
      (c :: p.1, p.2)
    else ([], c :: cs)

/-- Value of a hexadecimal digit, if the character is one. -/
def hexDigit (c : Char) : Option ℕ :=
  if '0' ≤ c ∧ c ≤ '9' then some (c.toNat - 48)
  else if 'a' ≤ c ∧ c ≤ 'f' then some (c.toNat - 97 + 10)
  else if 'A' ≤ c ∧ c ≤ 'F' then some (c.toNat - 65 + 10)
  else none

/-- Parses a JSON number (grammar `-?(0|[1-9][0-9]*)(\.[0-9]+)?([eE][+-]?[0-9]+)?`)
into an exact rational together with the unconsumed input. -/
def parseJNumber (cs : List Char) : Option (ℚ × List Char) :=
  let (neg, cs1) :=
    match cs with
    | '-' :: r => (true, r)
    | _ => (false, cs)
  let ipart : Option (ℕ × List Char) :=
    match cs1 with
    | '0' :: r => some (0, r)
    | c :: _ =>
      if '1' ≤ c ∧ c ≤ '9' then
        let p := takeDigits cs1
        some (digitsToNat p.1, p.2)
      else none
    | [] => none
  match ipart with
  | none => none
  | some (ip, r1) =>
    let fpart : Option (ℚ × List Char) :=
      match r1 with
      | '.' :: r2 =>
        let p := takeDigits r2
        if p.1 = [] then none
        else some ((digitsToNat p.1 : ℚ) / (10 : ℚ) ^ p.1.length, p.2)
      | _ => some (0, r1)
    match fpart with
    | none => none
    | some (fp, r2) =>
      let epart : Option (ℤ × List Char) :=
        match r2 with
        | 'e' :: r3 =>
          match r3 with
          | '+' :: r4 =>
            let p := takeDigits r4
            if p.1 = [] then none else some ((digitsToNat p.1 : ℤ), p.2)
          | '-' :: r4 =>
            let p := takeDigits r4
            if p.1 = [] then none else some (-(digitsToNat p.1 : ℤ), p.2)
          | _ =>
            let p := takeDigits r3
            if p.1 = [] then none else some ((digitsToNat p.1 : ℤ), p.2)
        | 'E' :: r3 =>
          match r3 with
          | '+' :: r4 =>
            let p := takeDigits r4
            if p.1 = [] then none else some ((digitsToNat p.1 : ℤ), p.2)
          | '-' :: r4 =>
            let p := takeDigits r4
            if p.1 = [] then none else some (-(digitsToNat p.1 : ℤ), p.2)
          | _ =>
            let p := takeDigits r3
            if p.1 = [] then none else some ((digitsToNat p.1 : ℤ), p.2)
        | _ => some (0, r2)
      match epart with
      | none => none
      | some (ex, r3) =>
        let mag : ℚ := ((ip : ℚ) + fp) * (10 : ℚ) ^ ex
        some (if neg then -mag else mag, r3)

/-- Parses the body of a JSON string (the opening quote already consumed),
handling the escape sequences accepted by `JSON.parse` and rejecting raw
control characters.  A `\uXXXX` escape is mapped through `Char.ofNat`
(JavaScript strings are UTF-16; lone surrogates cannot arise in the inputs
this development evaluates). -/
def parseJStringBody : ℕ → List Char → List Char → Option (String × List Char)
  | 0, _, _ => none
  | _ + 1, [], _ => none
  | fuel + 1, c :: cs, acc =>
    if c = '"' then some (String.mk acc.reverse, cs)
    else if c = '\\' then
      match cs with
      | '"' :: r => parseJStringBody fuel r ('"' :: acc)
      | '\\' :: r => parseJStringBody fuel r ('\\' :: acc)
      | '/' :: r => parseJStringBody fuel r ('/' :: acc)
      | 'b' :: r => parseJStringBody fuel r (Char.ofNat 8 :: acc)
      | 'f' :: r => parseJStringBody fuel r (Char.ofNat 12 :: acc)
      | 'n' :: r => parseJStringBody fuel r ('\n' :: acc)
      | 'r' :: r => parseJStringBody fuel r ('\r' :: acc)
      | 't' :: r => parseJStringBody fuel r ('\t' :: acc)
      | 'u' :: h1 :: h2 :: h3 :: h4 :: r =>
        match hexDigit h1, hexDigit h2, hexDigit h3, hexDigit h4 with
        | some a, some b, some c3, some d =>
          parseJStringBody fuel r (Char.ofNat (((a * 16 + b) * 16 + c3) * 16 + d) :: acc)
        | _, _, _, _ => none
      | _ => none
    else if c.toNat < 32 then none
    else parseJStringBody fuel cs (c :: acc)

mutual

/-- Parses one JSON value (after whitespace), returning the unconsumed input. -/
def parseJValue : ℕ → List Char → Option (JVal × List Char)
  | 0, _ => none
  | fuel + 1, cs =>
    match skipWs cs with
    | 't' :: 'r' :: 'u' :: 'e' :: rest => some (.jbool true, rest)
    | 'f' :: 'a' :: 'l' :: 's' :: 'e' :: rest => some (.jbool false, rest)
    | 'n' :: 'u' :: 'l' :: 'l' :: rest => some (.jnull, rest)
    | '"' :: rest =>
      match parseJStringBody (rest.length + 1) rest [] with
      | some (s, r) => some (.jstr s, r)
      | none => none
    | '[' :: rest =>
      match skipWs rest with
      | ']' :: r2 => some (.jarr [], r2)
      | r2 =>
        match parseJElems fuel r2 with
        | some (l, r) => some (.jarr l, r)
        | none => none
    | '{' :: rest =>
      match skipWs rest with
      | '}' :: r2 => some (.jobj [], r2)
      | r2 =>
        match parseJMembers fuel r2 with
        | some (l, r) => some (.jobj l, r)
        | none => none
    | rest =>
      match parseJNumber rest with
      | some (q, r) => some (.jnum q, r)
      | none => none

/-- Parses the comma-separated elements of a non-empty JSON array, including
the closing bracket. -/
def parseJElems : ℕ → List Char → Option (List JVal × List Char)
  | 0, _ => none
  | fuel + 1, cs =>
    match parseJValue fuel cs with
    | none => none
    | some (v, r) =>
      match skipWs r with
      | ',' :: r2 =>
        match parseJElems fuel r2 with
        | some (l, r3) => some (v :: l, r3)
        | none => none
      | ']' :: r2 => some ([v], r2)
      | _ => none

/-- Parses the comma-separated members of a non-empty JSON object, including
the closing brace. -/
def parseJMembers : ℕ → List Char → Option (List (String × JVal) × List Char)
  | 0, _ => none
  | fuel + 1, cs =>
    match skipWs cs with
    | '"' :: rest =>
      match parseJStringBody (rest.length + 1) rest [] with
      | none => none
      | some (k, r) =>
        match skipWs r with
        | ':' :: r2 =>
          match parseJValue fuel r2 with
          | none => none
          | some (v, r3) =>
            match skipWs r3 with
            | ',' :: r4 =>
              match parseJMembers fuel r4 with
              | some (l, r5) => some ((k, v) :: l, r5)
              | none => none
            | '}' :: r4 => some ([(k, v)], r4)
            | _ => none
        | _ => none
    | _ => none

end

/-- Model of the JavaScript builtin `JSON.parse`: parses the whole string as a
single JSON value (trailing whitespace allowed), returning `none` where the
builtin would throw a `SyntaxError`.  The fuel `2 * length + 8` dominates the
recursion depth, which consumes at least one character per two nested calls. -/
def jsonParse (s : String) : Option JVal :=
  match parseJValue (2 * s.length + 8) s.toList with
  | some (v, rest) => if skipWs rest = [] then some v else none
  | none => none

/-! ### `parseEmbeddingString` (loader worker, `part_001` lines 120-155)

The loader receives the embedding field either as a native numeric array, as
a (possibly malformed) string, or as some other value (the TypeScript
signature also admits a bare number).  `EmbValue` models that union. -/

inductive EmbValue : Type where
  | arr : List JVal → EmbValue
  | str : String → EmbValue
  | num : ℚ → EmbValue
  deriving Repr, Inhabited

/-- The guard `Array.isArray(embeddingStr) && typeof embeddingStr[0] === 'number'`:
only the FIRST element is inspected. -/
def isNumHead : List JVal → Bool
  | JVal.jnum _ :: _ => true
  | _ => false

/-- Model of `embeddingStr.replace(/^\\"|"\\$|^"|"$/g, '')`: all alternatives
are anchored, so the global replace removes at most one leading `\"` (or `"`)
and at most one trailing `"\` (or `"`); the trailing match is searched in what
remains after the leading match, mirroring the regex engine's left-to-right
non-overlapping scan. -/
def stripQuotes (s : String) : String :=
  let l := s.toList
  let l1 :=
    if l.take 2 = ['\\', '"'] then l.drop 2
    else if l.take 1 = ['"'] then l.drop 1
    else l
  let l2 :=
    if l1.reverse.take 2 = ['\\', '"'] then (l1.reverse.drop 2).reverse
    else if l1.reverse.take 1 = ['"'] then (l1.reverse.drop 1).reverse
    else l1
  String.mk l2

/-- The bracket normalisation
`if (!cleanStr.startsWith('[') || !cleanStr.endsWith(']')) cleanStr = '[' + cleanStr + ']'`. -/
def ensureBrackets (s : String) : String :=
  if s.toList.take 1 = ['['] ∧ s.toList.reverse.take 1 = [']'] then s
  else "[" ++ s ++ "]"

/-- One match attempt of the fallback regex `-?\d+\.\d+|-?\d+` at the head of
the input: an optional minus sign, a digit run, and — only if a dot followed by
at least one digit comes next (first alternative) — the dot and its digit run.
Returns the matched token and the unconsumed input.  Greedy `\d+` with an
immediately following literal dot never needs backtracking, so this linear
scan matches the regex engine exactly. -/
def matchNumToken (cs : List Char) : Option (List Char × List Char) :=
  let (neg, cs1) :=
    match cs with
    | '-' :: r => (true, r)
    | _ => (false, cs)
  let p := takeDigits cs1
  if p.1 = [] then none
  else
    let sign := if neg then ['-'] else []
    match p.2 with
    | '.' :: r2 =>
      let f := takeDigits r2
      if f.1 = [] then some (sign ++ p.1, p.2)
      else some (sign ++ p.1 ++ '.' :: f.1, f.2)
    | _ => some (sign ++ p.1, p.2)

/-- Model of the global match against `-?\d+\.\d+|-?\d+`: the scan collects
successive non-overlapping matches, advancing one character where no match
starts.  Every step consumes at least one character, so fuel `length + 1`
never runs out. -/
def scanNumTokens : ℕ → List Char → List (List Char)
  | 0, _ => []
  | _ + 1, [] => []
  | fuel + 1, c :: rest =>
    match matchNumToken (c :: rest) with
    | some (tok, r) => tok :: scanNumTokens fuel r
    | none => scanNumTokens fuel rest

/-- JavaScript `Number(tok)` on a token produced by the fallback regex
(`-?digits(.digits)?`), as an exact rational. -/
def tokenToRat (tok : List Char) : ℚ :=
  let (neg, t1) :=
    match tok with
    | '-' :: r => (true, r)
    | _ => (false, tok)
  let p := takeDigits t1
  let v : ℚ :=
    match p.2 with
    | '.' :: fr =>
      let f := takeDigits fr
      (digitsToNat p.1 : ℚ) + (digitsToNat f.1 : ℚ) / (10 : ℚ) ^ f.1.length
    | _ => (digitsToNat p.1 : ℚ)
  if neg then -v else v

/-- Model of the loader worker's `parseEmbeddingString` (`part_001` 120-155).

* an array whose first element is a number is returned unchanged;
* a string is quote-stripped, bracket-normalised, then fed to `JSON.parse`;
  on a parse error the numeric tokens are extracted by regex; if the regex
  finds no token (`match` returns `null`) control falls through;
* everything else (including a non-string, non-array value and an array whose
  first element is not a number) reaches the final `return []`.

A successful `JSON.parse` of a bracket-normalised string always yields an
array, so the non-array arm below is unreachable; it mirrors the final
`return []`.  The function is total: the source's try/catch never propagates
an exception. -/
def parseEmbeddingString : EmbValue → List JVal
  | EmbValue.arr l => if isNumHead l then l else []
  | EmbValue.str s =>
    let cleanStr := ensureBrackets (stripQuotes s)
    match jsonParse cleanStr with
    | some (JVal.jarr l) => l
    | some _ => []
    | none =>
      match scanNumTokens (cleanStr.length + 1) cleanStr.toList with
      | [] => []
      | toks => toks.map (fun t => JVal.jnum (tokenToRat t))
  | EmbValue.num _ => []

/-! ### The streaming loader worker (`part_001`)

`startLoadData` pipes the NDJSON resource through split/parse transforms and
feeds each record to `processPointStream`; at end of stream it calls
`pointStreamFinished`.  We model one record as the fields of the fixed-position
stream array that the worker actually reads (`point[0]`, `point[1]`,
`point[2]`, `point[4]`, `point[5]`, `point[6]`, `point[point.length - 1]`).
Fields that are only copied through verbatim into the point and never branch
(`point[7]` markdown summary, `point[8]`-`point[11]`) are omitted from the
model; they do not affect any settled claim. -/

structure UMAPRecord : Type where
  x : ℚ
  y : ℚ
  interests : String
  name : String
  citationCount : ℚ
  imageURL : String
  embedding : EmbValue
  deriving Repr, Inhabited

/-- The subset of `PromptPoint` fields that `processPointStream` constructs
and the settled claims mention.  The live `x`, `y` coordinates are mutated
later by the force layout / dispersal animation. -/
structure PromptPoint : Type where
  x : ℚ
  y : ℚ
  prompt : String
  id : ℕ
  tooltipInfo : String
  name : String
  currEmbedding : List JVal
  currURL : String
  currCitationCount : ℚ
  deriving Repr, DecidableEq, Inhabited

/-- Model of the regex match `[?&]user=([^&]+)` in
`getResearcherProfilePicPath`: first position where a `?` or `&` is followed
by `user=` and at least one non-`&` capture character. -/
def findUserParam : List Char → Option (List Char)
  | [] => none
  | c :: cs =>
    if (c = '?' ∨ c = '&') ∧ cs.take 5 = ['u', 's', 'e', 'r', '='] then
      let cap := (cs.drop 5).takeWhile (fun d => d ≠ '&')
      if cap = [] then findUserParam cs else some cap
    else findUserParam cs

/-- The build-time constant `import.meta.env.BASE_URL`, modelled as the dev
default (the vite config sets other bases for the GitHub-pages builds; no
settled claim depends on its value). -/
def loaderBaseURL : String := "/"

/-- Model of `getResearcherProfilePicPath` (`part_001` 27-46): extract the
Google Scholar id and map it to the local image path, falling back to the
original URL. -/
def getResearcherProfilePicPath (googleScholarURL : String) : String :=
  match findUserParam googleScholarURL.toList with
  | some idChars =>
    loaderBaseURL ++ "images/researchers/" ++ String.mk idChars ++ ".jpg"
  | none => googleScholarURL

/-- Model of the image-URL unwrapping in `processPointStream` (184-191) for
the string representation: strip a leading `[` with optional quote and a
trailing `]` with optional preceding quote (an actual array payload is
modelled as its first element, already unwrapped). -/
def stripImageURLWrapper (s : String) : String :=
  let l1 :=
    match s.toList with
    | '[' :: '"' :: r => r
    | '[' :: '\'' :: r => r
    | '[' :: r => r
    | l => l
  let l2 :=
    match l1.reverse with
    | ']' :: '"' :: r => r.reverse
    | ']' :: '\'' :: r => r.reverse
    | ']' :: r => r.reverse
    | _ => l1
  String.mk l2

/-- Construction of one `PromptPoint` from a stream record
(`processPointStream`, `part_001` 161-199), with `id := loadedPointCount`. -/
def mkPromptPoint (loadedPointCount : ℕ) (point : UMAPRecord) : PromptPoint :=
  let researcherName := point.name
  let resInterests :=
    if point.interests.length > 0 then point.interests
    else "No defined research interests"
  let resFullInfo := researcherName ++ ": " ++ resInterests
  { x := point.x
    y := point.y
    prompt := resFullInfo
    id := loadedPointCount
    tooltipInfo := resFullInfo
    name := researcherName
    currEmbedding := parseEmbeddingString point.embedding
    currURL := getResearcherProfilePicPath (stripImageURLWrapper point.imageURL)
    currCitationCount := point.citationCount }

/-- `const POINT_THRESHOLD = 5000` (`part_001` line 16). -/
def POINT_THRESHOLD : ℕ := 5000

/-- The `transferLoadData` payload posted to the main thread. -/
structure LoaderBatch : Type where
  isFirstBatch : Bool
  isLastBatch : Bool
  points : List PromptPoint
  loadedPointCount : ℕ
  deriving Repr, DecidableEq, Inhabited

/-- The loader worker's module-level mutable state (`part_001` 18-20, 48). -/
structure LoaderState : Type where
  pendingDataPoints : List PromptPoint
  loadedPointCount : ℕ
  sentPointCount : ℕ
  lastDrawnPoints : Option (List PromptPoint)
  deriving Repr, DecidableEq, Inhabited

/-- The worker's state at module load. -/
def initLoaderState : LoaderState :=
  { pendingDataPoints := []
    loadedPointCount := 0
    sentPointCount := 0
    lastDrawnPoints := none }

/-- Model of `processPointStream` (`part_001` 161-233): build the point,
push it, bump the counter, and post a `transferLoadData` batch once the
pending buffer reaches `POINT_THRESHOLD`.  The returned list holds the
batches posted during this call (zero or one). -/
def processPointStream (s : LoaderState) (point : UMAPRecord) :
    LoaderState × List LoaderBatch :=
  let promptPoint := mkPromptPoint s.loadedPointCount point
  let pending := s.pendingDataPoints ++ [promptPoint]
  let loaded := s.loadedPointCount + 1
  if POINT_THRESHOLD ≤ pending.length then
    ({ pendingDataPoints := []
       loadedPointCount := loaded
       sentPointCount := s.sentPointCount + pending.length
       lastDrawnPoints := some pending },
     [{ isFirstBatch := s.lastDrawnPoints.isNone
        isLastBatch := false
        points := pending
        loadedPointCount := loaded }])
  else
    ({ s with pendingDataPoints := pending, loadedPointCount := loaded }, [])

/-- Model of `pointStreamFinished` (`part_001` 238-255): flush the pending
points (possibly none) as a final batch with `isLastBatch := true`. -/
def pointStreamFinished (s : LoaderState) : LoaderState × LoaderBatch :=
  ({ pendingDataPoints := []
     loadedPointCount := s.loadedPointCount
     sentPointCount := s.sentPointCount + s.pendingDataPoints.length
     lastDrawnPoints := some s.pendingDataPoints },
   { isFirstBatch := s.lastDrawnPoints.isNone
     isLastBatch := true
     points := s.pendingDataPoints
     loadedPointCount := s.loadedPointCount })

/-- Feeds a list of stream records through `processPointStream`, collecting
every batch posted along the way. -/
def processStream : LoaderState → List UMAPRecord → LoaderState × List LoaderBatch
  | s, [] => (s, [])
  | s, r :: rs =>
    let out1 := processPointStream s r
    let out2 := processStream out1.1 rs
    (out2.1, out1.2 ++ out2.2)

/-- The complete run of `startLoadData` on a stream of records: every
`processPointStream` batch followed by the `pointStreamFinished` flush. -/
def runLoader (records : List UMAPRecord) : List LoaderBatch :=
  let out := processStream initLoaderState records
  out.2 ++ [(pointStreamFinished out.1).2]

/-- The points the loader builds from a record stream starting at a given id
counter: one point per record, ids consecutive. -/
def mkPoints (i : ℕ) : List UMAPRecord → List PromptPoint
  | [] => []
  | r :: rs => mkPromptPoint i r :: mkPoints (i + 1) rs

/-! ### Loader invariants -/

theorem mkPoints_map_id (rs : List UMAPRecord) :
    ∀ i, (mkPoints i rs).map PromptPoint.id = List.range' i rs.length := by
  induction rs with
  | nil => intro i; simp [mkPoints]
  | cons r rs ih =>
    intro i
    simp [mkPoints, List.range'_succ, mkPromptPoint, ih]

theorem mkPoints_length (rs : List UMAPRecord) : ∀ i, (mkPoints i rs).length = rs.length := by
  induction rs with
  | nil => intro i; simp [mkPoints]
  | cons r rs ih => intro i; simp [mkPoints, ih]

theorem processPointStream_loadedCount (s : LoaderState) (r : UMAPRecord) :
    (processPointStream s r).1.loadedPointCount = s.loadedPointCount + 1 := by
  simp only [processPointStream]
  split <;> rfl

theorem processStream_loadedCount (rs : List UMAPRecord) :
    ∀ s : LoaderState,
      (processStream s rs).1.loadedPointCount = s.loadedPointCount + rs.length := by
  induction rs with
  | nil => intro s; simp [processStream]
  | cons r rs ih =>
    intro s
    simp only [processStream]
    rw [ih, processPointStream_loadedCount]
    simp [Nat.add_assoc, Nat.add_comm 1 rs.length]

theorem processPointStream_join (s : LoaderState) (r : UMAPRecord) :
    ((processPointStream s r).2.map LoaderBatch.points).flatten ++
        (processPointStream s r).1.pendingDataPoints =
      s.pendingDataPoints ++ [mkPromptPoint s.loadedPointCount r] := by
  simp only [processPointStream]
  split <;> simp

theorem processStream_join (rs : List UMAPRecord) :
    ∀ s : LoaderState,
      ((processStream s rs).2.map LoaderBatch.points).flatten ++
          (processStream s rs).1.pendingDataPoints =
        s.pendingDataPoints ++ mkPoints s.loadedPointCount rs := by
  induction rs with
  | nil => intro s; simp [processStream, mkPoints]
  | cons r rs ih =>
    intro s
    simp only [processStream, List.map_append, List.flatten_append, List.append_assoc]
    rw [ih, processPointStream_loadedCount,
      ← List.append_assoc (((processPointStream s r).2.map LoaderBatch.points).flatten),
      processPointStream_join]
    simp [mkPoints]

theorem processPointStream_emit (s : LoaderState) (r : UMAPRecord)
    (h : POINT_THRESHOLD ≤ s.pendingDataPoints.length + 1) :
    processPointStream s r =
      ({ pendingDataPoints := []
         loadedPointCount := s.loadedPointCount + 1
         sentPointCount := s.sentPointCount + (s.pendingDataPoints.length + 1)
         lastDrawnPoints :=
           some (s.pendingDataPoints ++ [mkPromptPoint s.loadedPointCount r]) },
       [{ isFirstBatch := s.lastDrawnPoints.isNone
          isLastBatch := false
          points := s.pendingDataPoints ++ [mkPromptPoint s.loadedPointCount r]
          loadedPointCount := s.loadedPointCount + 1 }]) := by
  simp only [processPointStream]
  rw [if_pos (by simpa using h)]
  simp

theorem processPointStream_noemit (s : LoaderState) (r : UMAPRecord)
    (h : ¬ POINT_THRESHOLD ≤ s.pendingDataPoints.length + 1) :
    processPointStream s r =
      ({ s with
          pendingDataPoints :=
            s.pendingDataPoints ++ [mkPromptPoint s.loadedPointCount r]
          loadedPointCount := s.loadedPointCount + 1 }, []) := by
  simp only [processPointStream]
  rw [if_neg (by simpa using h)]

theorem processPointStream_pending_emit (s : LoaderState) (r : UMAPRecord)
    (h : POINT_THRESHOLD ≤ s.pendingDataPoints.length + 1) :
    (processPointStream s r).1.pendingDataPoints = [] := by
  rw [processPointStream_emit s r h]

theorem processPointStream_pending_noemit (s : LoaderState) (r : UMAPRecord)
    (h : ¬ POINT_THRESHOLD ≤ s.pendingDataPoints.length + 1) :
    (processPointStream s r).1.pendingDataPoints =
      s.pendingDataPoints ++ [mkPromptPoint s.loadedPointCount r] := by
  rw [processPointStream_noemit s r h]

theorem processPointStream_batches_emit (s : LoaderState) (r : UMAPRecord)
    (h : POINT_THRESHOLD ≤ s.pendingDataPoints.length + 1) :
    (processPointStream s r).2 =
      [{ isFirstBatch := s.lastDrawnPoints.isNone
         isLastBatch := false
         points := s.pendingDataPoints ++ [mkPromptPoint s.loadedPointCount r]
         loadedPointCount := s.loadedPointCount + 1 }] := by
  rw [processPointStream_emit s r h]

theorem processPointStream_batches_noemit (s : LoaderState) (r : UMAPRecord)
    (h : ¬ POINT_THRESHOLD ≤ s.pendingDataPoints.length + 1) :
    (processPointStream s r).2 = [] := by
  rw [processPointStream_noemit s r h]

theorem processPointStream_lastDrawn_emit (s : LoaderState) (r : UMAPRecord)
    (h : POINT_THRESHOLD ≤ s.pendingDataPoints.length + 1) :
    (processPointStream s r).1.lastDrawnPoints =
      some (s.pendingDataPoints ++ [mkPromptPoint s.loadedPointCount r]) := by
  rw [processPointStream_emit s r h]

theorem processPointStream_lastDrawn_noemit (s : LoaderState) (r : UMAPRecord)
    (h : ¬ POINT_THRESHOLD ≤ s.pendingDataPoints.length + 1) :
    (processPointStream s r).1.lastDrawnPoints = s.lastDrawnPoints := by
  rw [processPointStream_noemit s r h]

theorem processStream_count_len (rs : List UMAPRecord) :
    ∀ s : LoaderState, s.pendingDataPoints.length < POINT_THRESHOLD →
      (processStream s rs).1.pendingDataPoints.length =
          (s.pendingDataPoints.length + rs.length) % POINT_THRESHOLD ∧
        (processStream s rs).2.length =
          (s.pendingDataPoints.length + rs.length) / POINT_THRESHOLD ∧
        (processStream s rs).1.pendingDataPoints.length < POINT_THRESHOLD := by
  induction rs with
  | nil =>
    intro s hp
    refine ⟨?_, ?_, ?_⟩
    · simp [processStream, Nat.mod_eq_of_lt hp]
    · simp [processStream, Nat.div_eq_of_lt hp]
    · simpa [processStream] using hp
  | cons r rs ih =>
    intro s hp
    by_cases h : POINT_THRESHOLD ≤ s.pendingDataPoints.length + 1
    · have hpend := processPointStream_pending_emit s r h
      have hbatch := processPointStream_batches_emit s r h
      obtain ⟨ih1, ih2, ih3⟩ := ih (processPointStream s r).1
        (by rw [hpend]; simp [POINT_THRESHOLD])
      rw [hpend] at ih1 ih2
      simp only [List.length_nil] at ih1 ih2
      refine ⟨?_, ?_, ih3⟩
      · show (processStream (processPointStream s r).1 rs).1.pendingDataPoints.length = _
        rw [ih1]
        simp only [List.length_cons, POINT_THRESHOLD] at h hp ⊢
        omega
      · show ((processPointStream s r).2 ++
            (processStream (processPointStream s r).1 rs).2).length = _
        rw [List.length_append, ih2, hbatch]
        simp only [List.length_nil, List.length_cons, List.length_singleton,
          POINT_THRESHOLD] at h hp ⊢
        omega
    · have hpend := processPointStream_pending_noemit s r h
      have hbatch := processPointStream_batches_noemit s r h
      obtain ⟨ih1, ih2, ih3⟩ := ih (processPointStream s r).1
        (by rw [hpend]; simp only [List.length_append, List.length_singleton]; omega)
      rw [hpend] at ih1 ih2
      simp only [List.length_append, List.length_singleton] at ih1 ih2
      refine ⟨?_, ?_, ih3⟩
      · show (processStream (processPointStream s r).1 rs).1.pendingDataPoints.length = _
        rw [ih1]
        simp only [List.length_cons, POINT_THRESHOLD] at h hp ⊢
        omega
      · show ((processPointStream s r).2 ++
            (processStream (processPointStream s r).1 rs).2).length = _
        rw [List.length_append, ih2, hbatch]
        simp only [List.length_nil, List.length_cons, POINT_THRESHOLD] at h hp ⊢
        omega

theorem processStream_batches (rs : List UMAPRecord) :
    ∀ s : LoaderState, s.pendingDataPoints.length < POINT_THRESHOLD →
      ∀ b ∈ (processStream s rs).2,
        b.isLastBatch = false ∧ b.points.length = POINT_THRESHOLD := by
  induction rs with
  | nil => intro s _ b hb; simp [processStream] at hb
  | cons r rs ih =>
    intro s hp b hb
    have hb2 : b ∈ (processPointStream s r).2 ++
        (processStream (processPointStream s r).1 rs).2 := hb
    rw [List.mem_append] at hb2
    by_cases h : POINT_THRESHOLD ≤ s.pendingDataPoints.length + 1
    · rcases hb2 with hb1 | hbrest
      · rw [processPointStream_batches_emit s r h] at hb1
        simp only [List.mem_singleton] at hb1
        subst hb1
        refine ⟨rfl, ?_⟩
        simp only [List.length_append, List.length_singleton]
        omega
      · exact ih (processPointStream s r).1
          (by rw [processPointStream_pending_emit s r h]; simp [POINT_THRESHOLD])
          b hbrest
    · rcases hb2 with hb1 | hbrest
      · rw [processPointStream_batches_noemit s r h] at hb1
        simp at hb1
      · exact ih (processPointStream s r).1
          (by rw [processPointStream_pending_noemit s r h]
              simp only [List.length_append, List.length_singleton]; omega)
          b hbrest

theorem processStream_lastDrawn (rs : List UMAPRecord) :
    ∀ s : LoaderState,
      ((processStream s rs).2 = [] →
        (processStream s rs).1.lastDrawnPoints = s.lastDrawnPoints) ∧
      ((processStream s rs).2 ≠ [] →
        (processStream s rs).1.lastDrawnPoints.isNone = false) := by
  induction rs with
  | nil =>
    intro s
    exact ⟨fun _ => rfl, fun hne => absurd rfl hne⟩
  | cons r rs ih =>
    intro s
    obtain ⟨ihe, ihn⟩ := ih (processPointStream s r).1
    by_cases h : POINT_THRESHOLD ≤ s.pendingDataPoints.length + 1
    · constructor
      · intro hempty
        exfalso
        have h2 : ((processPointStream s r).2 ++
            (processStream (processPointStream s r).1 rs).2) = [] := hempty
        rw [processPointStream_batches_emit s r h] at h2
        simp at h2
      · intro _
        show (processStream (processPointStream s r).1 rs).1.lastDrawnPoints.isNone
            = false
        by_cases hrest : (processStream (processPointStream s r).1 rs).2 = []
        · rw [ihe hrest, processPointStream_lastDrawn_emit s r h]
          rfl
        · exact ihn hrest
    · constructor
      · intro hempty
        have hempty2 : ((processPointStream s r).2 ++
            (processStream (processPointStream s r).1 rs).2) = [] := hempty
        rw [processPointStream_batches_noemit s r h, List.nil_append] at hempty2
        show (processStream (processPointStream s r).1 rs).1.lastDrawnPoints = _
        rw [ihe hempty2, processPointStream_lastDrawn_noemit s r h]
      · intro hne
        have hne2 : ((processPointStream s r).2 ++
            (processStream (processPointStream s r).1 rs).2) ≠ [] := hne
        rw [processPointStream_batches_noemit s r h, List.nil_append] at hne2
        show (processStream (processPointStream s r).1 rs).1.lastDrawnPoints.isNone
            = false
        exact ihn hne2

theorem bool_flags_collapse (l : List LoaderBatch) :
    (if l = [] then ([] : List Bool)
     else false :: List.replicate (l.length - 1) false) =
      List.replicate l.length false := by
  cases l <;> simp [List.replicate_succ]

theorem processStream_firstFlags (rs : List UMAPRecord) :
    ∀ s : LoaderState,
      (processStream s rs).2.map LoaderBatch.isFirstBatch =
        (if (processStream s rs).2 = [] then []
         else s.lastDrawnPoints.isNone ::
           List.replicate ((processStream s rs).2.length - 1) false) := by
  induction rs with
  | nil => intro s; simp [processStream]
  | cons r rs ih =>
    intro s
    show ((processPointStream s r).2 ++
        (processStream (processPointStream s r).1 rs).2).map LoaderBatch.isFirstBatch
      = if ((processPointStream s r).2 ++
            (processStream (processPointStream s r).1 rs).2) = [] then []
        else s.lastDrawnPoints.isNone ::
          List.replicate (((processPointStream s r).2 ++
            (processStream (processPointStream s r).1 rs).2).length - 1) false
    have ihflags := ih (processPointStream s r).1
    by_cases h : POINT_THRESHOLD ≤ s.pendingDataPoints.length + 1
    · rw [processPointStream_batches_emit s r h]
      rw [processPointStream_lastDrawn_emit s r h] at ihflags
      simp only [Option.isNone_some] at ihflags
      rw [List.map_append, ihflags, bool_flags_collapse]
      simp [List.replicate_succ]
    · rw [processPointStream_batches_noemit s r h, List.nil_append]
      rw [processPointStream_lastDrawn_noemit s r h] at ihflags
      exact ihflags

/-! ### Claims C1, C2, C10: batch protocol of the streaming loader -/

theorem initLoaderState_pending_lt :
    initLoaderState.pendingDataPoints.length < POINT_THRESHOLD := by
  simp [initLoaderState, POINT_THRESHOLD]

theorem initLoaderState_pending : initLoaderState.pendingDataPoints = [] := rfl

theorem initLoaderState_loaded : initLoaderState.loadedPointCount = 0 := rfl

theorem initLoaderState_lastDrawn : initLoaderState.lastDrawnPoints = none := rfl

theorem runLoader_eq (records : List UMAPRecord) :
    runLoader records =
      (processStream initLoaderState records).2 ++
        [{ isFirstBatch :=
             (processStream initLoaderState records).1.lastDrawnPoints.isNone
           isLastBatch := true
           points := (processStream initLoaderState records).1.pendingDataPoints
           loadedPointCount :=
             (processStream initLoaderState records).1.loadedPointCount }] := rfl

/-- C1.  For every stream of records, the loader emits batches in stream order:
every batch before the final flush carries `isLastBatch = false` and exactly
`POINT_THRESHOLD = 5000` points, the final flush carries the remaining
`length % 5000` points, only the first emitted batch carries
`isFirstBatch = true`, the number of batches is `length / 5000 + 1`, and the
concatenation of all batch payloads is the stream's points in arrival order.
Instantiated at a 12,000-record stream this gives exactly 3 batches of sizes
5000, 5000, 2000 with only the last tagged `isLastBatch = true` and only the
first tagged `isFirstBatch = true`. -/
theorem streamingLoader_batch_protocol (records : List UMAPRecord) :
    (runLoader records).length = records.length / POINT_THRESHOLD + 1 ∧
    (runLoader records).map (fun b => b.points.length) =
      List.replicate (records.length / POINT_THRESHOLD) POINT_THRESHOLD ++
        [records.length % POINT_THRESHOLD] ∧
    (runLoader records).map LoaderBatch.isLastBatch =
      List.replicate (records.length / POINT_THRESHOLD) false ++ [true] ∧
    (runLoader records).map LoaderBatch.isFirstBatch =
      true :: List.replicate (records.length / POINT_THRESHOLD) false ∧
    ((runLoader records).map LoaderBatch.points).flatten = mkPoints 0 records := by
  obtain ⟨hlen, hcount, _⟩ :=
    processStream_count_len records initLoaderState initLoaderState_pending_lt
  rw [initLoaderState_pending, List.length_nil, Nat.zero_add] at hlen hcount
  have hbatches := processStream_batches records initLoaderState
    initLoaderState_pending_lt
  have hflags := processStream_firstFlags records initLoaderState
  have hlast := processStream_lastDrawn records initLoaderState
  have hjoin := processStream_join records initLoaderState
  rw [initLoaderState_lastDrawn] at hflags
  rw [initLoaderState_pending, initLoaderState_loaded, List.nil_append] at hjoin
  refine ⟨?_, ?_, ?_, ?_, ?_⟩
  · rw [runLoader_eq, List.length_append, hcount]
    rfl
  · rw [runLoader_eq, List.map_append]
    have h1 : (processStream initLoaderState records).2.map
        (fun b => b.points.length) =
        List.replicate (records.length / POINT_THRESHOLD) POINT_THRESHOLD := by
      rw [List.eq_replicate_iff]
      constructor
      · rw [List.length_map, hcount]
      · intro x hx
        rw [List.mem_map] at hx
        obtain ⟨b, hb, rfl⟩ := hx
        exact (hbatches b hb).2
    rw [h1, List.map_singleton]
    rw [hlen]
  · rw [runLoader_eq, List.map_append]
    have h1 : (processStream initLoaderState records).2.map LoaderBatch.isLastBatch =
        List.replicate (records.length / POINT_THRESHOLD) false := by
      rw [List.eq_replicate_iff]
      constructor
      · rw [List.length_map, hcount]
      · intro x hx
        rw [List.mem_map] at hx
        obtain ⟨b, hb, rfl⟩ := hx
        exact (hbatches b hb).1
    rw [h1, List.map_singleton]
  · rw [runLoader_eq, List.map_append, hflags, List.map_singleton]
    by_cases hempty : (processStream initLoaderState records).2 = []
    · rw [if_pos hempty]
      rw [hlast.1 hempty]
      have : records.length / POINT_THRESHOLD = 0 := by
        rw [← hcount, hempty]
        rfl
      rw [this]
      rfl
    · rw [if_neg hempty]
      rw [hlast.2 hempty]
      have hpos : 1 ≤ (processStream initLoaderState records).2.length := by
        cases hq : (processStream initLoaderState records).2 with
        | nil => exact absurd hq hempty
        | cons a l => simp
      rw [← hcount]
      show (true :: List.replicate ((processStream initLoaderState records).2.length
          - 1) false) ++ [false] =
        true :: List.replicate (processStream initLoaderState records).2.length false
      rw [List.cons_append]
      congr 1
      rw [← List.replicate_succ']
      congr 1
      omega
  · rw [runLoader_eq, List.map_append, List.map_singleton, List.flatten_append]
    show ((processStream initLoaderState records).2.map LoaderBatch.points).flatten
        ++ ((processStream initLoaderState records).1.pendingDataPoints ++ []) =
      mkPoints 0 records
    rw [List.append_nil]
    simpa using hjoin

/-- C2.  For every ingestion sequence the loader's final `loadedPointCount`
equals the number of stream records, one point is created per record, and the
ids over all emitted batch payloads, in emission order, are exactly
`0, 1, 2, …, n-1` — so sorting by id reconstructs arrival order. -/
theorem streamingLoader_ids_contiguous (records : List UMAPRecord) :
    (processStream initLoaderState records).1.loadedPointCount = records.length ∧
    ((runLoader records).map LoaderBatch.points).flatten.length = records.length ∧
    ((runLoader records).map LoaderBatch.points).flatten.map PromptPoint.id =
      List.range records.length := by
  have hflat : ((runLoader records).map LoaderBatch.points).flatten =
      mkPoints 0 records :=
    (streamingLoader_batch_protocol records).2.2.2.2
  refine ⟨?_, ?_, ?_⟩
  · have h := processStream_loadedCount records initLoaderState
    rw [initLoaderState_loaded, Nat.zero_add] at h
    exact h
  · rw [hflat, mkPoints_length]
  · rw [hflat, mkPoints_map_id, ← List.range_eq_range']

/-- C10.  At stream end the loader always posts one final `transferLoadData`
batch tagged `isLastBatch = true`, holding the `length % 5000` leftover points
(an empty array when the record count is an exact multiple of 5000), tagged
`isFirstBatch = true` exactly when no threshold batch preceded it (in
particular for the empty stream, whose run is that single empty batch). -/
theorem streamingLoader_final_flush (records : List UMAPRecord) :
    ∃ b : LoaderBatch,
      (runLoader records).getLast? = some b ∧
      b.isLastBatch = true ∧
      b.points.length = records.length % POINT_THRESHOLD ∧
      b.isFirstBatch = decide (records.length < POINT_THRESHOLD) ∧
      (runLoader records).length = records.length / POINT_THRESHOLD + 1 := by
  obtain ⟨hlen, hcount, _⟩ :=
    processStream_count_len records initLoaderState initLoaderState_pending_lt
  rw [initLoaderState_pending, List.length_nil, Nat.zero_add] at hlen hcount
  have hlast := processStream_lastDrawn records initLoaderState
  refine ⟨{ isFirstBatch :=
              (processStream initLoaderState records).1.lastDrawnPoints.isNone
            isLastBatch := true
            points := (processStream initLoaderState records).1.pendingDataPoints
            loadedPointCount :=
              (processStream initLoaderState records).1.loadedPointCount },
          ?_, rfl, ?_, ?_, ?_⟩
  · rw [runLoader_eq, List.getLast?_concat]
  · exact hlen
  · show (processStream initLoaderState records).1.lastDrawnPoints.isNone = _
    by_cases hempty : (processStream initLoaderState records).2 = []
    · rw [hlast.1 hempty, initLoaderState_lastDrawn]
      have h0 : records.length / POINT_THRESHOLD = 0 := by rw [← hcount, hempty]; rfl
      have hlt : records.length < POINT_THRESHOLD :=
        (Nat.div_eq_zero_iff (by simp [POINT_THRESHOLD])).1 h0
      simp [hlt]
    · rw [hlast.2 hempty]
      have hpos : 0 < (processStream initLoaderState records).2.length := by
        cases hq : (processStream initLoaderState records).2 with
        | nil => exact absurd hq hempty
        | cons a l => simp
      rw [hcount] at hpos
      have : ¬ records.length < POINT_THRESHOLD := by
        intro hlt
        rw [Nat.div_eq_of_lt hlt] at hpos
        exact Nat.lt_irrefl 0 hpos
      simp [this]
  · rw [runLoader_eq, List.length_append, hcount]
    rfl

/-! ### Claim C7: totality and fallbacks of `parseEmbeddingString` -/

/-- Whether a JSON value is a number — the claim calls a parse result a
"numeric array" when every element satisfies this. -/
def isNumericJVal : JVal → Bool
  | JVal.jnum _ => true
  | _ => false

/-- C7 (counterexample).  The claim says the parser always returns a
*numeric* array.  For the well-formed JSON input string `["a"]` the cleaned
string parses, so the source returns the JSON-parsed array unchanged — an
array whose element is the *string* `"a"`, not a number. -/
theorem parseEmbedding_counterexample :
    parseEmbeddingString (EmbValue.str "[\"a\"]") = [JVal.jstr "a"] ∧
    (parseEmbeddingString (EmbValue.str "[\"a\"]")).all isNumericJVal = false := by
  with_unfolding_all decide

/-- C7 (amended).  `parseEmbeddingString` is total (the Lean model is a total
function; the source's try/catch never rethrows) and returns: the input
unchanged when it is an array headed by a number (and `[]` for an empty
array, which equals that input); the JSON-parsed array when the cleaned
string parses (not necessarily numeric, see the counterexample); the
regex-extracted numeric tokens when JSON parsing fails; `[]` otherwise
(e.g. for a bare number).  Moreover `processPointStream` appends exactly one
point per record regardless of the embedding field, so a malformed embedding
never drops its record. -/
theorem parseEmbedding_graceful_fallback (q : ℚ) (vs : List JVal)
    (s : LoaderState) (r : UMAPRecord) :
    parseEmbeddingString (EmbValue.arr (JVal.jnum q :: vs)) = JVal.jnum q :: vs ∧
    parseEmbeddingString (EmbValue.arr []) = [] ∧
    parseEmbeddingString (EmbValue.num q) = [] ∧
    parseEmbeddingString (EmbValue.str "0.5, -2, oops, 3") =
      [JVal.jnum (1 / 2), JVal.jnum (-2), JVal.jnum 3] ∧
    (processPointStream s r).1.loadedPointCount = s.loadedPointCount + 1 ∧
    ((processPointStream s r).2.map LoaderBatch.points).flatten ++
        (processPointStream s r).1.pendingDataPoints =
      s.pendingDataPoints ++ [mkPromptPoint s.loadedPointCount r] := by
  refine ⟨?_, rfl, rfl, ?_, processPointStream_loadedCount s r,
    processPointStream_join s r⟩
  · simp [parseEmbeddingString, isNumHead]
  · with_unfolding_all decide

/-! ### The `Embedding` class state (dispersal animation, hover, handlers)

`Embedding.ts` holds the live point collection, the zoom transform, the d3
linear scales, the local quadtree snapshot, and the dispersal-animation
bookkeeping.  d3 linear scales are affine maps; the d3 zoom transform applies
`x ↦ k*x + tx`.  `requestAnimationFrame` handles are modelled by a counter;
`performance.now()` timestamps are passed in as arguments.  Side effects
(worker messages, WebGL buffer writes, redraws) are returned as an ordered
`RenderAction` trace. -/

structure LinearScale : Type where
  m : ℚ
  c : ℚ
  deriving Repr, DecidableEq, Inhabited

/-- `scale(v)` for a d3 linear scale. -/
def LinearScale.apply (sc : LinearScale) (v : ℚ) : ℚ := sc.m * v + sc.c

/-- `scale.invert(w)` for a d3 linear scale. -/
def LinearScale.invert (sc : LinearScale) (w : ℚ) : ℚ := (w - sc.c) / sc.m

structure ZoomTransform : Type where
  k : ℚ
  tx : ℚ
  ty : ℚ
  deriving Repr, DecidableEq, Inhabited

/-- `transform.applyX(x) = x * k + tx` (d3-zoom). -/
def ZoomTransform.applyX (t : ZoomTransform) (x : ℚ) : ℚ := x * t.k + t.tx

/-- `transform.applyY(y) = y * k + ty` (d3-zoom). -/
def ZoomTransform.applyY (t : ZoomTransform) (y : ℚ) : ℚ := y * t.k + t.ty

/-- `transform.invertX(x) = (x - tx) / k` (d3-zoom). -/
def ZoomTransform.invertX (t : ZoomTransform) (x : ℚ) : ℚ := (x - t.tx) / t.k

/-- `transform.invertY(y) = (y - ty) / k` (d3-zoom). -/
def ZoomTransform.invertY (t : ZoomTransform) (y : ℚ) : ℚ := (y - t.ty) / t.k

/-- A `Map<number, {x, y}>` snapshot of point positions, as an association
list (`Map.get` returns the entry of the matching id; ids are unique in the
source, see `streamingLoader_ids_contiguous`). -/
abbrev PosMap : Type := List (ℕ × ℚ × ℚ)

/-- `map.get(id)`. -/
def posGet (m : PosMap) (id : ℕ) : Option (ℚ × ℚ) :=
  ((List.find? (fun e => e.1 = id) m)).map Prod.snd

/-- The snapshot loops `for (const point of points) map.set(point.id, {x, y})`. -/
def capturePositions (pts : List PromptPoint) : PosMap :=
  pts.map (fun p => (p.id, p.x, p.y))

inductive RenderAction : Type where
  | updateQuadtreeMsg (points : List PromptPoint)
  | searchAddPointsMsg (points : List PromptPoint)
  | initWebGLBuffersAct
  | updateWebGLBuffersAct (points : List PromptPoint)
  | cancelAnimationFrameAct (frameId : ℕ)
  | updateSimulationAct (points : List PromptPoint)
  | drawScatterPlotAct
  | rebuildPointQuadtreeAct
  | updatePointPositionsLightweightAct
  | updatePointTransformsOnlyAct
  | updatePointPositionsAct
  | footerUpdateAct (numPoints : ℕ)
  | logUnknownAct (command : String)
  deriving Repr, DecidableEq, Inhabited

/-- The `Embedding` fields the settled claims touch. -/
structure EmbeddingState : Type where
  promptPoints : List PromptPoint
  loadedPointCount : ℕ
  pointQuadtree : Option (List PromptPoint)
  xScale : LinearScale
  yScale : LinearScale
  curZoomTransform : ZoomTransform
  curPointWidth : ℚ
  preSimPositions : Option PosMap
  postSimPositions : Option PosMap
  isAnimatingDispersal : Bool
  animationFrameId : Option ℕ
  animationStartTime : ℚ
  nextFrameId : ℕ
  deriving Repr, DecidableEq, Inhabited

/-- `private readonly ANIMATION_DURATION = 1200` (`Embedding.ts` 235). -/
def ANIMATION_DURATION : ℚ := 1200

/-- The cubic ease-in-out remap of `startDispersalAnimation`
(`Embedding.ts` 2453). -/
def easeCubicInOut (t : ℚ) : ℚ :=
  if t < 1 / 2 then 4 * t * t * t else 1 - (-2 * t + 2) ^ 3 / 2

/-- One point's update in the animation frame loop (`Embedding.ts` 2456-2463):
linear interpolation between the `pre` and `post` snapshots, applied only when
both entries exist. -/
def lerpPoint (pre post : PosMap) (t : ℚ) (p : PromptPoint) : PromptPoint :=
  match posGet pre p.id, posGet post p.id with
  | some a, some b =>
    { p with x := a.1 + (b.1 - a.1) * t, y := a.2 + (b.2 - a.2) * t }
  | _, _ => p

/-- One point's snap to the `post` snapshot in `finalizeDispersalAnimation`
(`Embedding.ts` 2505-2513). -/
def snapPoint (post : PosMap) (p : PromptPoint) : PromptPoint :=
  match posGet post p.id with
  | some b => { p with x := b.1, y := b.2 }
  | none => p

/-- Model of `finalizeDispersalAnimation` (`Embedding.ts` 2500-2524): stop the
animation, set every point exactly to its `post` entry, run the full update
(`updatePointPositions`, full `drawScatterPlot`, `rebuildPointQuadtree`), and
drop both snapshots. -/
def finalizeDispersalAnimation (st : EmbeddingState) :
    EmbeddingState × List RenderAction :=
  let pts :=
    match st.postSimPositions with
    | some post => st.promptPoints.map (snapPoint post)
    | none => st.promptPoints
  ({ st with
      isAnimatingDispersal := false
      animationFrameId := none
      promptPoints := pts
      pointQuadtree := some pts
      preSimPositions := none
      postSimPositions := none },
   [RenderAction.updatePointPositionsAct, RenderAction.drawScatterPlotAct,
    RenderAction.rebuildPointQuadtreeAct])

/-- Model of one `animate` callback of `startDispersalAnimation`
(`Embedding.ts` 2448-2475): compute the eased normalized time, lerp every
point, push the lightweight updates, then either finalize (`t ≥ 1`) or
schedule the next frame.  The source dereferences the snapshots with `!`;
the guard arm is unreachable under `startDispersalAnimation`'s precondition. -/
def animateFrame (st : EmbeddingState) (now : ℚ) :
    EmbeddingState × List RenderAction :=
  match st.preSimPositions, st.postSimPositions with
  | some pre, some post =>
    let elapsed := now - st.animationStartTime
    let t := easeCubicInOut (min (elapsed / ANIMATION_DURATION) 1)
    let pts := st.promptPoints.map (lerpPoint pre post t)
    let st1 := { st with promptPoints := pts }
    if 1 ≤ t then
      let out := finalizeDispersalAnimation st1
      (out.1,
       [RenderAction.updatePointPositionsLightweightAct,
        RenderAction.updatePointTransformsOnlyAct] ++ out.2)
    else
      ({ st1 with
          animationFrameId := some st1.nextFrameId
          nextFrameId := st1.nextFrameId + 1 },
       [RenderAction.updatePointPositionsLightweightAct,
        RenderAction.updatePointTransformsOnlyAct])
  | _, _ => (st, [])

/-- Model of `startDispersalAnimation` (`Embedding.ts` 2442-2447, 2477):
guard on both snapshots, mark the animation live, record the start timestamp,
and request the first frame. -/
def startDispersalAnimation (st : EmbeddingState) (now : ℚ) : EmbeddingState :=
  match st.preSimPositions, st.postSimPositions with
  | some _, some _ =>
    { st with
        isAnimatingDispersal := true
        animationStartTime := now
        animationFrameId := some st.nextFrameId
        nextFrameId := st.nextFrameId + 1 }
  | _, _ => st

/-- Model of `loaderWorkerMessageHandler` (`Embedding.ts` 1830-1953).  For
`transferLoadData` the first batch initialises the collection, snapshots the
pre-simulation positions and starts the force simulation; later batches
append the new points, cancel any in-flight dispersal animation, recapture
the pre snapshot from the *current* live positions of the full collection,
restart the force simulation over all points, and rebuild the quadtree on the
last batch.  Unknown commands are logged and ignored. -/
def loaderWorkerMessageHandler (st : EmbeddingState) (command : String)
    (payload : LoaderBatch) : EmbeddingState × List RenderAction :=
  if command = "transferLoadData" then
    if payload.isFirstBatch then
      let pts := payload.points
      ({ st with
          promptPoints := pts
          preSimPositions := some (capturePositions pts)
          loadedPointCount := pts.length },
       [RenderAction.updateQuadtreeMsg payload.points,
        RenderAction.initWebGLBuffersAct,
        RenderAction.updateSimulationAct pts,
        RenderAction.drawScatterPlotAct,
        RenderAction.searchAddPointsMsg pts,
        RenderAction.footerUpdateAct pts.length])
    else
      let newPoints := payload.points
      let pts := st.promptPoints ++ newPoints
      let cancel : EmbeddingState × List RenderAction :=
        match st.isAnimatingDispersal, st.animationFrameId with
        | true, some fid =>
          ({ st with animationFrameId := none, isAnimatingDispersal := false },
           [RenderAction.cancelAnimationFrameAct fid])
        | _, _ => (st, [])
      let st3 :=
        { cancel.1 with
            promptPoints := pts
            preSimPositions := some (capturePositions pts)
            loadedPointCount := pts.length }
      let st4 :=
        if payload.isLastBatch then { st3 with pointQuadtree := some pts } else st3
      (st4,
       [RenderAction.updateQuadtreeMsg newPoints,
        RenderAction.searchAddPointsMsg newPoints,
        RenderAction.updateWebGLBuffersAct newPoints] ++
       cancel.2 ++
       [RenderAction.updateSimulationAct pts, RenderAction.drawScatterPlotAct] ++
       (if payload.isLastBatch then [RenderAction.rebuildPointQuadtreeAct] else []) ++
       [RenderAction.footerUpdateAct pts.length])
  else
    (st, [RenderAction.logUnknownAct command])

/-! ### Claim C4: finalization snaps exactly to the post snapshot -/

theorem easeCubicInOut_one : easeCubicInOut 1 = 1 := by
  norm_num [easeCubicInOut]

theorem easeCubicInOut_lt_one (t : ℚ) (ht : t < 1) : easeCubicInOut t < 1 := by
  unfold easeCubicInOut
  split
  · rcases le_or_lt t 0 with h0 | h0
    · nlinarith [mul_self_nonneg t]
    · have h1 : t * t < 1 / 4 := by nlinarith
      nlinarith
  · have h2 : (0 : ℚ) < -2 * t + 2 := by linarith
    have h3 : (0 : ℚ) < (-2 * t + 2) ^ 3 := pow_pos h2 3
    linarith

theorem snapPoint_lerpPoint (pre post : PosMap) (t : ℚ) (p : PromptPoint) :
    snapPoint post (lerpPoint pre post t p) = snapPoint post p := by
  cases hpre : posGet pre p.id <;> cases hpost : posGet post p.id <;>
    simp [lerpPoint, snapPoint, hpre, hpost]

theorem animateFrame_finalize_eq (st : EmbeddingState) (now : ℚ)
    (pre post : PosMap)
    (hpre : st.preSimPositions = some pre) (hpost : st.postSimPositions = some post)
    (ht : ANIMATION_DURATION ≤ now - st.animationStartTime) :
    animateFrame st now =
      ({ st with
          promptPoints := st.promptPoints.map (snapPoint post)
          pointQuadtree := some (st.promptPoints.map (snapPoint post))
          isAnimatingDispersal := false
          animationFrameId := none
          preSimPositions := none
          postSimPositions := none },
       [RenderAction.updatePointPositionsLightweightAct,
        RenderAction.updatePointTransformsOnlyAct,
        RenderAction.updatePointPositionsAct, RenderAction.drawScatterPlotAct,
        RenderAction.rebuildPointQuadtreeAct]) := by
  have hmin : min ((now - st.animationStartTime) / ANIMATION_DURATION) 1 = 1 := by
    apply min_eq_right
    rw [le_div_iff₀ (by norm_num [ANIMATION_DURATION])]
    rw [one_mul]
    exact ht
  have hcomp : ∀ p ∈ st.promptPoints,
      snapPoint post (lerpPoint pre post 1 p) = snapPoint post p :=
    fun p _ => snapPoint_lerpPoint pre post 1 p
  unfold animateFrame
  rw [hpre, hpost]
  simp only [hmin, easeCubicInOut_one, le_refl, if_true]
  unfold finalizeDispersalAnimation
  simp only [hpost, List.map_map, Function.comp_def]
  rw [List.map_congr_left hcomp]
  rfl

/-- C4.  When the dispersal animation reaches normalized time `t ≥ 1`
(equivalently, elapsed time at least `ANIMATION_DURATION`), the frame loop
finalizes: every live point whose id has an entry in the `post` (force-layout
output) snapshot is set exactly equal to that entry (points without an entry
are left untouched), the animation stops, and the per-frame lightweight
updates are followed by exactly one full redraw (`updatePointPositions`,
`drawScatterPlot`) and a rebuild of the spatial index
(`rebuildPointQuadtree`), whose snapshot then holds the snapped points. -/
theorem dispersal_finalize_exact (st : EmbeddingState) (now : ℚ)
    (pre post : PosMap)
    (hpre : st.preSimPositions = some pre) (hpost : st.postSimPositions = some post)
    (ht : ANIMATION_DURATION ≤ now - st.animationStartTime) :
    (animateFrame st now).1.promptPoints = st.promptPoints.map (snapPoint post) ∧
    (∀ p ∈ st.promptPoints, ∀ q : ℚ × ℚ, posGet post p.id = some q →
      ∃ p2, p2 ∈ (animateFrame st now).1.promptPoints ∧ p2.id = p.id ∧
        p2.x = q.1 ∧ p2.y = q.2) ∧
    (animateFrame st now).1.isAnimatingDispersal = false ∧
    (animateFrame st now).1.animationFrameId = none ∧
    (animateFrame st now).2 =
      [RenderAction.updatePointPositionsLightweightAct,
       RenderAction.updatePointTransformsOnlyAct,
       RenderAction.updatePointPositionsAct, RenderAction.drawScatterPlotAct,
       RenderAction.rebuildPointQuadtreeAct] ∧
    (animateFrame st now).1.pointQuadtree =
      some ((animateFrame st now).1.promptPoints) := by
  rw [animateFrame_finalize_eq st now pre post hpre hpost ht]
  refine ⟨rfl, ?_, rfl, rfl, rfl, rfl⟩
  intro p hp q hq
  refine ⟨snapPoint post p, List.mem_map_of_mem _ hp, ?_, ?_, ?_⟩ <;>
    simp [snapPoint, hq]

/-- A point with given id and coordinates and empty optional fields, used by
the concrete witnesses. -/
def testPoint (i : ℕ) (x y : ℚ) : PromptPoint :=
  { x := x, y := y, prompt := "", id := i, tooltipInfo := "", name := "",
    currEmbedding := [], currURL := "", currCitationCount := 0 }

/-- A concrete `Embedding` state in the middle of a dispersal animation of one
point from `(0,0)` to `(10,5)`, used by the witnesses. -/
def embStateA : EmbeddingState :=
  { promptPoints := [testPoint 0 0 0]
    loadedPointCount := 1
    pointQuadtree := none
    xScale := { m := 1, c := 0 }
    yScale := { m := 1, c := 0 }
    curZoomTransform := { k := 1, tx := 0, ty := 0 }
    curPointWidth := 2
    preSimPositions := some [(0, 0, 0)]
    postSimPositions := some [(0, 10, 5)]
    isAnimatingDispersal := true
    animationFrameId := some 7
    animationStartTime := 0
    nextFrameId := 8 }

/-- Witness for C4: the hypotheses of `dispersal_finalize_exact` hold of the
concrete state `embStateA` at timestamp 1200, and the theorem applies. -/
theorem dispersal_finalize_exact_witness :
    embStateA.preSimPositions = some [(0, 0, 0)] ∧
    embStateA.postSimPositions = some [(0, 10, 5)] ∧
    ANIMATION_DURATION ≤ 1200 - embStateA.animationStartTime ∧
    ((animateFrame embStateA 1200).1.promptPoints =
        embStateA.promptPoints.map (snapPoint [(0, 10, 5)]) ∧
      (∀ p ∈ embStateA.promptPoints, ∀ q : ℚ × ℚ,
        posGet [(0, 10, 5)] p.id = some q →
        ∃ p2, p2 ∈ (animateFrame embStateA 1200).1.promptPoints ∧ p2.id = p.id ∧
          p2.x = q.1 ∧ p2.y = q.2) ∧
      (animateFrame embStateA 1200).1.isAnimatingDispersal = false ∧
      (animateFrame embStateA 1200).1.animationFrameId = none ∧
      (animateFrame embStateA 1200).2 =
        [RenderAction.updatePointPositionsLightweightAct,
         RenderAction.updatePointTransformsOnlyAct,
         RenderAction.updatePointPositionsAct, RenderAction.drawScatterPlotAct,
         RenderAction.rebuildPointQuadtreeAct] ∧
      (animateFrame embStateA 1200).1.pointQuadtree =
        some ((animateFrame embStateA 1200).1.promptPoints)) :=
  ⟨rfl, rfl, by norm_num [ANIMATION_DURATION, embStateA],
   dispersal_finalize_exact embStateA 1200 [(0, 0, 0)] [(0, 10, 5)] rfl rfl
     (by norm_num [ANIMATION_DURATION, embStateA])⟩

/-! ### Claim C5: a mid-animation batch cancels the loop and recaptures pre -/

theorem animateFrame_continue_eq (st : EmbeddingState) (now : ℚ)
    (pre post : PosMap)
    (hpre : st.preSimPositions = some pre) (hpost : st.postSimPositions = some post)
    (ht : now - st.animationStartTime < ANIMATION_DURATION) :
    animateFrame st now =
      ({ st with
          promptPoints := st.promptPoints.map (lerpPoint pre post
            (easeCubicInOut
              (min ((now - st.animationStartTime) / ANIMATION_DURATION) 1)))
          animationFrameId := some st.nextFrameId
          nextFrameId := st.nextFrameId + 1 },
       [RenderAction.updatePointPositionsLightweightAct,
        RenderAction.updatePointTransformsOnlyAct]) := by
  obtain ⟨pp, lc, pq, xs, ys, zt, cw, pre0, post0, ia, afi, ast, nfi⟩ := st
  dsimp only at hpre hpost ht ⊢
  subst hpre
  subst hpost
  have hq : (now - ast) / ANIMATION_DURATION < 1 := by
    rw [div_lt_one (by norm_num [ANIMATION_DURATION])]
    exact ht
  have hlt : easeCubicInOut (min ((now - ast) / ANIMATION_DURATION) 1) < 1 := by
    rw [min_eq_left (le_of_lt hq)]
    exact easeCubicInOut_lt_one _ hq
  dsimp only [animateFrame]
  rw [if_neg (not_le.mpr hlt)]

/-- C5.  If a `transferLoadData` batch (not the first) arrives right after a
mid-flight animation frame (elapsed < `ANIMATION_DURATION`), then: that frame
rendered the points lerped between `pre` and `post`; the handler cancels the
frame loop immediately (`cancelAnimationFrame` on the pending handle, flags
cleared); the `pre` snapshot is recaptured as exactly the current, partially
animated positions of the full point collection (last-rendered lerped points
plus the new batch, not the original raw positions); and the force simulation
is restarted over that full collection. -/
theorem interruption_recaptures_live (st : EmbeddingState) (now : ℚ)
    (payload : LoaderBatch) (pre post : PosMap)
    (hpre : st.preSimPositions = some pre) (hpost : st.postSimPositions = some post)
    (hanim : st.isAnimatingDispersal = true)
    (ht : now - st.animationStartTime < ANIMATION_DURATION)
    (hfb : payload.isFirstBatch = false) :
    (animateFrame st now).1.promptPoints =
      st.promptPoints.map (lerpPoint pre post
        (easeCubicInOut (min ((now - st.animationStartTime) / ANIMATION_DURATION) 1))) ∧
    (animateFrame st now).1.isAnimatingDispersal = true ∧
    (animateFrame st now).1.animationFrameId = some st.nextFrameId ∧
    (loaderWorkerMessageHandler (animateFrame st now).1 "transferLoadData"
        payload).1.isAnimatingDispersal = false ∧
    (loaderWorkerMessageHandler (animateFrame st now).1 "transferLoadData"
        payload).1.animationFrameId = none ∧
    RenderAction.cancelAnimationFrameAct st.nextFrameId ∈
      (loaderWorkerMessageHandler (animateFrame st now).1 "transferLoadData"
        payload).2 ∧
    (loaderWorkerMessageHandler (animateFrame st now).1 "transferLoadData"
        payload).1.preSimPositions =
      some (capturePositions
        ((animateFrame st now).1.promptPoints ++ payload.points)) ∧
    (loaderWorkerMessageHandler (animateFrame st now).1 "transferLoadData"
        payload).1.promptPoints =
      (animateFrame st now).1.promptPoints ++ payload.points ∧
    RenderAction.updateSimulationAct
        ((animateFrame st now).1.promptPoints ++ payload.points) ∈
      (loaderWorkerMessageHandler (animateFrame st now).1 "transferLoadData"
        payload).2 := by
  rw [animateFrame_continue_eq st now pre post hpre hpost ht]
  by_cases hlb : payload.isLastBatch = true
  · refine ⟨rfl, hanim, rfl, ?_, ?_, ?_, ?_, ?_, ?_⟩ <;>
      simp [loaderWorkerMessageHandler, hfb, hanim, hlb]
  · rw [Bool.not_eq_true] at hlb
    refine ⟨rfl, hanim, rfl, ?_, ?_, ?_, ?_, ?_, ?_⟩ <;>
      simp [loaderWorkerMessageHandler, hfb, hanim, hlb]

/-- A concrete non-first, non-last batch used by the C5 witness. -/
def batchB : LoaderBatch :=
  { isFirstBatch := false, isLastBatch := false,
    points := [testPoint 1 3 4], loadedPointCount := 2 }

/-- Witness for C5: the hypotheses of `interruption_recaptures_live` hold of
the concrete mid-animation state `embStateA` at timestamp 600 with batch
`batchB`, and the theorem applies. -/
theorem interruption_recaptures_live_witness :
    embStateA.preSimPositions = some [(0, 0, 0)] ∧
    embStateA.postSimPositions = some [(0, 10, 5)] ∧
    embStateA.isAnimatingDispersal = true ∧
    600 - embStateA.animationStartTime < ANIMATION_DURATION ∧
    batchB.isFirstBatch = false ∧
    ((animateFrame embStateA 600).1.promptPoints =
        embStateA.promptPoints.map (lerpPoint [(0, 0, 0)] [(0, 10, 5)]
          (easeCubicInOut
            (min ((600 - embStateA.animationStartTime) / ANIMATION_DURATION) 1))) ∧
      (animateFrame embStateA 600).1.isAnimatingDispersal = true ∧
      (animateFrame embStateA 600).1.animationFrameId = some embStateA.nextFrameId ∧
      (loaderWorkerMessageHandler (animateFrame embStateA 600).1 "transferLoadData"
          batchB).1.isAnimatingDispersal = false ∧
      (loaderWorkerMessageHandler (animateFrame embStateA 600).1 "transferLoadData"
          batchB).1.animationFrameId = none ∧
      RenderAction.cancelAnimationFrameAct embStateA.nextFrameId ∈
        (loaderWorkerMessageHandler (animateFrame embStateA 600).1 "transferLoadData"
          batchB).2 ∧
      (loaderWorkerMessageHandler (animateFrame embStateA 600).1 "transferLoadData"
          batchB).1.preSimPositions =
        some (capturePositions
          ((animateFrame embStateA 600).1.promptPoints ++ batchB.points)) ∧
      (loaderWorkerMessageHandler (animateFrame embStateA 600).1 "transferLoadData"
          batchB).1.promptPoints =
        (animateFrame embStateA 600).1.promptPoints ++ batchB.points ∧
      RenderAction.updateSimulationAct
          ((animateFrame embStateA 600).1.promptPoints ++ batchB.points) ∈
        (loaderWorkerMessageHandler (animateFrame embStateA 600).1 "transferLoadData"
          batchB).2) :=
  ⟨rfl, rfl, rfl, by norm_num [ANIMATION_DURATION, embStateA], rfl,
   interruption_recaptures_live embStateA 600 batchB [(0, 0, 0)] [(0, 10, 5)]
     rfl rfl rfl (by norm_num [ANIMATION_DURATION, embStateA]) rfl⟩

/-! ### Claim C3: hover resolution via the local quadtree -/

/-- Squared Euclidean distance, the square-free core of
`Math.sqrt(Math.pow(x1-x2, 2) + Math.pow(y1-y2, 2))`. -/
def distSq (x1 y1 x2 y2 : ℚ) : ℚ := (x1 - x2) ^ 2 + (y1 - y2) ^ 2

/-- Contract model of `d3.quadtree().find(x, y)` over the rebuilt point
snapshot: some point of the list at minimal Euclidean distance from the query
(ties resolved arbitrarily, as d3 does). -/
def quadtreeFind (x y : ℚ) : List PromptPoint → Option PromptPoint
  | [] => none
  | p :: ps =>
    match quadtreeFind x y ps with
    | none => some p
    | some q => if distSq p.x p.y x y < distSq q.x q.y x y then some p else some q

/-- The hover gate `Math.max(7 / this.curZoomTransform.k, this.curPointWidth * 2)`
(`Embedding.ts` 2092-2095). -/
def hoverThreshold (st : EmbeddingState) : ℚ :=
  max (7 / st.curZoomTransform.k) (st.curPointWidth * 2)

/-- Model of `mouseoverPoint` (`Embedding.ts` 2073-2103), quadtree path:
invert the zoom transform and the scales to data coordinates, query the local
quadtree for the nearest point, and highlight it only if its screen-space
Euclidean distance from the pointer is at most the hover threshold.  The
source compares `Math.sqrt(d) <= threshold`; this is encoded square-free as
`0 ≤ threshold ∧ d ≤ threshold ^ 2`, which is equivalent because
`Math.sqrt(d) ≥ 0` and squaring is monotone on nonnegatives.  `some` is the
`highlightPoint` call; `none` covers both a failed gate and the non-quadtree
fallback, which posts an asynchronous worker query instead of highlighting
locally. -/
def mouseoverPoint (st : EmbeddingState) (x y : ℚ) : Option PromptPoint :=
  let dataX := st.xScale.invert (st.curZoomTransform.invertX x)
  let dataY := st.yScale.invert (st.curZoomTransform.invertY y)
  match st.pointQuadtree with
  | some tree =>
    if st.promptPoints.length > 0 then
      match quadtreeFind dataX dataY tree with
      | some closestPoint =>
        let screenPointX :=
          st.curZoomTransform.applyX (st.xScale.apply closestPoint.x)
        let screenPointY :=
          st.curZoomTransform.applyY (st.yScale.apply closestPoint.y)
        if 0 ≤ hoverThreshold st ∧
            distSq x y screenPointX screenPointY ≤ hoverThreshold st ^ 2 then
          some closestPoint
        else none
      | none => none
    else none
  | none => none

theorem quadtreeFind_mem (x y : ℚ) :
    ∀ (ps : List PromptPoint) (p : PromptPoint),
      quadtreeFind x y ps = some p → p ∈ ps := by
  intro ps
  induction ps with
  | nil => intro p h; simp [quadtreeFind] at h
  | cons a l ih =>
    intro p h
    unfold quadtreeFind at h
    cases hrec : quadtreeFind x y l with
    | none => rw [hrec] at h; simp at h; simp [h]
    | some q =>
      rw [hrec] at h
      simp only at h
      split at h
      · simp at h; simp [h]
      · simp at h
        subst h
        exact List.mem_cons_of_mem a (ih q hrec)

theorem quadtreeFind_isSome (x y : ℚ) :
    ∀ ps : List PromptPoint, ps ≠ [] → ∃ p, quadtreeFind x y ps = some p := by
  intro ps
  induction ps with
  | nil => intro h; exact absurd rfl h
  | cons a l ih =>
    intro _
    unfold quadtreeFind
    cases hrec : quadtreeFind x y l with
    | none => exact ⟨a, rfl⟩
    | some q =>
      by_cases hlt : distSq a.x a.y x y < distSq q.x q.y x y
      · refine ⟨a, ?_⟩
        show (if distSq a.x a.y x y < distSq q.x q.y x y
            then some a else some q) = some a
        rw [if_pos hlt]
      · refine ⟨q, ?_⟩
        show (if distSq a.x a.y x y < distSq q.x q.y x y
            then some a else some q) = some q
        rw [if_neg hlt]

theorem quadtreeFind_min (x y : ℚ) :
    ∀ (ps : List PromptPoint) (p : PromptPoint),
      quadtreeFind x y ps = some p →
        ∀ q ∈ ps, distSq p.x p.y x y ≤ distSq q.x q.y x y := by
  intro ps
  induction ps with
  | nil => intro p h; simp [quadtreeFind] at h
  | cons a l ih =>
    intro p h q hq
    unfold quadtreeFind at h
    cases hrec : quadtreeFind x y l with
    | none =>
      rw [hrec] at h
      simp only [Option.some.injEq] at h
      subst h
      rcases List.mem_cons.mp hq with rfl | hql
      · exact le_refl _
      · rcases l with _ | ⟨b, m⟩
        · simp at hql
        · exfalso
          obtain ⟨w, hw⟩ := quadtreeFind_isSome x y (b :: m) (by simp)
          rw [hw] at hrec
          cases hrec
    | some w =>
      rw [hrec] at h
      simp only at h
      rcases List.mem_cons.mp hq with rfl | hql
      · split at h <;> simp only [Option.some.injEq] at h <;> subst h
        · exact le_refl _
        · rename_i hnlt
          exact le_of_not_lt hnlt
      · split at h <;> simp only [Option.some.injEq] at h <;> subst h
        · rename_i hlt
          exact le_of_lt (lt_of_lt_of_le hlt (ih w hrec q hql))
        · exact ih w hrec q hql

/-- C3.  With the local quadtree holding the rebuilt point snapshot and a
positive zoom scale, `mouseoverPoint` inverts the zoom transform and the
scales to data coordinates, the queried candidate is a genuine
Euclidean-nearest point in data space, the hover threshold
`max(7/k, curPointWidth*2)` is positive, and the candidate is highlighted if
and only if its squared screen-space Euclidean distance from the pointer is
at most the squared threshold — the inclusive `≤` makes the boundary case
`distance = threshold` highlight. -/
theorem mouseover_highlights_iff (st : EmbeddingState) (x y : ℚ)
    (htree : st.pointQuadtree = some st.promptPoints)
    (hne : st.promptPoints ≠ [])
    (hk : 0 < st.curZoomTransform.k) :
    ∃ p, p ∈ st.promptPoints ∧
      quadtreeFind (st.xScale.invert (st.curZoomTransform.invertX x))
        (st.yScale.invert (st.curZoomTransform.invertY y)) st.promptPoints =
        some p ∧
      (∀ q ∈ st.promptPoints,
        distSq p.x p.y (st.xScale.invert (st.curZoomTransform.invertX x))
            (st.yScale.invert (st.curZoomTransform.invertY y)) ≤
          distSq q.x q.y (st.xScale.invert (st.curZoomTransform.invertX x))
            (st.yScale.invert (st.curZoomTransform.invertY y))) ∧
      0 < hoverThreshold st ∧
      mouseoverPoint st x y =
        (if distSq x y (st.curZoomTransform.applyX (st.xScale.apply p.x))
              (st.curZoomTransform.applyY (st.yScale.apply p.y)) ≤
            hoverThreshold st ^ 2
         then some p else none) := by
  obtain ⟨p, hfind⟩ := quadtreeFind_isSome
    (st.xScale.invert (st.curZoomTransform.invertX x))
    (st.yScale.invert (st.curZoomTransform.invertY y)) st.promptPoints hne
  have hT : 0 < hoverThreshold st :=
    lt_of_lt_of_le (by positivity) (le_max_left _ _)
  refine ⟨p, quadtreeFind_mem _ _ _ p hfind, hfind,
    quadtreeFind_min _ _ _ p hfind, hT, ?_⟩
  unfold mouseoverPoint
  rw [htree]
  simp only [gt_iff_lt, List.length_pos]
  rw [if_pos hne, hfind]
  simp only []
  rw [if_congr (and_iff_right (le_of_lt hT)) rfl rfl]

/-- A concrete hover state: identity scales and transform, one point at data
`(7, 0)`, `curPointWidth = 2`, so the hover threshold is `max(7/1, 4) = 7`
and a pointer at the origin sits exactly on the threshold boundary
(`distSq = 49 = 7^2`). -/
def embStateC : EmbeddingState :=
  { promptPoints := [testPoint 0 7 0]
    loadedPointCount := 1
    pointQuadtree := some [testPoint 0 7 0]
    xScale := { m := 1, c := 0 }
    yScale := { m := 1, c := 0 }
    curZoomTransform := { k := 1, tx := 0, ty := 0 }
    curPointWidth := 2
    preSimPositions := none
    postSimPositions := none
    isAnimatingDispersal := false
    animationFrameId := none
    animationStartTime := 0
    nextFrameId := 0 }

/-- Witness for C3: the hypotheses of `mouseover_highlights_iff` hold of the
concrete boundary state `embStateC` with the pointer at the origin, and the
theorem applies. -/
theorem mouseover_highlights_iff_witness :
    embStateC.pointQuadtree = some embStateC.promptPoints ∧
    embStateC.promptPoints ≠ [] ∧
    (0 : ℚ) < embStateC.curZoomTransform.k ∧
    (∃ p, p ∈ embStateC.promptPoints ∧
      quadtreeFind (embStateC.xScale.invert (embStateC.curZoomTransform.invertX 0))
        (embStateC.yScale.invert (embStateC.curZoomTransform.invertY 0))
        embStateC.promptPoints = some p ∧
      (∀ q ∈ embStateC.promptPoints,
        distSq p.x p.y
            (embStateC.xScale.invert (embStateC.curZoomTransform.invertX 0))
            (embStateC.yScale.invert (embStateC.curZoomTransform.invertY 0)) ≤
          distSq q.x q.y
            (embStateC.xScale.invert (embStateC.curZoomTransform.invertX 0))
            (embStateC.yScale.invert (embStateC.curZoomTransform.invertY 0))) ∧
      0 < hoverThreshold embStateC ∧
      mouseoverPoint embStateC 0 0 =
        (if distSq 0 0 (embStateC.curZoomTransform.applyX (embStateC.xScale.apply p.x))
              (embStateC.curZoomTransform.applyY (embStateC.yScale.apply p.y)) ≤
            hoverThreshold embStateC ^ 2
         then some p else none)) :=
  ⟨rfl, by simp [embStateC], by norm_num [embStateC],
   mouseover_highlights_iff embStateC 0 0 rfl (by simp [embStateC])
     (by norm_num [embStateC])⟩

/-! ### Claim C6: image aspect-ratio decoding across redraw passes

`drawScatterPlot` (`EmbeddingPointWebGL.ts`) binds the point data by id.  For
each ENTERING point the enter chain (lines 307-345) creates a fresh
`new Image()` for the point's URL — one decode, neither consulting nor
filling `imageAspectRatioCache`.  The merged update pass (lines 405-443) then
runs over ALL bound points: a cache hit applies the cached ratio with no
decode; a cache miss creates an `Image`, whose load stores the ratio in the
cache keyed by URL.  Decodes are modelled as an ordered event list of URLs;
the asynchronous `onload` completion is folded into the decode event (it
fires between draw passes in the claim's scenario).  `ratioOf` is the
environment: the decoded width/height ratio per URL. -/

def imageAspectRatioCacheLookup (cache : List (String × ℚ)) (src : String) :
    Option ℚ :=
  (List.find? (fun e => e.1 = src) cache).map Prod.snd

/-- One redraw pass of the image handling: returns the updated cache, the
ids now present in the DOM (the data join leaves exactly the bound points),
and the decode events in order (enter-phase decodes, then update-phase
cache-miss decodes). -/
def drawImagesPass (ratioOf : String → ℚ) (cache : List (String × ℚ))
    (existingIds : List ℕ) (pts : List PromptPoint) :
    List (String × ℚ) × List ℕ × List String :=
  let entering := pts.filter (fun p => decide (p.id ∉ existingIds))
  let enterDecodes := entering.map (fun p => p.currURL)
  let step := fun (acc : List (String × ℚ) × List String) (p : PromptPoint) =>
    match imageAspectRatioCacheLookup acc.1 p.currURL with
    | some _ => acc
    | none => ((p.currURL, ratioOf p.currURL) :: acc.1, acc.2 ++ [p.currURL])
  let merged := pts.foldl step (cache, [])
  (merged.1, pts.map (fun p => p.id), enterDecodes ++ merged.2)

/-- A concrete point with image URL `"u"`, for the C6 counterexample. -/
def testPointU : PromptPoint :=
  { testPoint 0 0 0 with currURL := "u" }

/-- First scatter-plot redraw of a single point, from an empty cache and an
empty DOM. -/
def imgPass1 (ratioOf : String → ℚ) (p : PromptPoint) :
    List (String × ℚ) × List ℕ × List String :=
  drawImagesPass ratioOf [] [] [p]

/-- Second redraw of the same point, resuming from the first pass. -/
def imgPass2 (ratioOf : String → ℚ) (p : PromptPoint) :
    List (String × ℚ) × List ℕ × List String :=
  drawImagesPass ratioOf (imgPass1 ratioOf p).1 (imgPass1 ratioOf p).2.1 [p]

/-- Third redraw of the same point, resuming from the second pass. -/
def imgPass3 (ratioOf : String → ℚ) (p : PromptPoint) :
    List (String × ℚ) × List ℕ × List String :=
  drawImagesPass ratioOf (imgPass2 ratioOf p).1 (imgPass2 ratioOf p).2.1 [p]

/-- C6 (counterexample).  Drawing a fresh point across two redraw passes from
an empty cache requests the aspect ratio of its URL with TWO image decodes,
not exactly one: the first pass's enter chain decodes once bypassing the
cache, and its update pass misses the cache and decodes again (filling it);
the second pass is fully cached. -/
theorem image_cache_counterexample :
    (imgPass1 (fun _ => 1) testPointU).2.2 ++ (imgPass2 (fun _ => 1) testPointU).2.2
        = ["u", "u"] ∧
    List.count "u"
      ((imgPass1 (fun _ => 1) testPointU).2.2 ++
        (imgPass2 (fun _ => 1) testPointU).2.2) = 2 := by
  with_unfolding_all decide

/-- C6 (amended).  For every decoded-ratio environment and every point: the
first draw pass from an empty cache decodes the point's URL exactly twice
(once in the cache-bypassing enter chain, once in the cache-missing update
pass, which fills the cache); every subsequent redraw reuses the cached ratio
and performs zero decodes for that URL. -/
theorem image_cache_amended (ratioOf : String → ℚ) (p : PromptPoint) :
    List.count p.currURL (imgPass1 ratioOf p).2.2 = 2 ∧
    List.count p.currURL (imgPass2 ratioOf p).2.2 = 0 ∧
    List.count p.currURL (imgPass3 ratioOf p).2.2 = 0 := by
  refine ⟨?_, ?_, ?_⟩ <;>
    simp [imgPass1, imgPass2, imgPass3, drawImagesPass,
      imageAspectRatioCacheLookup, List.count_cons, List.count_nil]

/-! ### Claim C8: the two point-width formulas of `drawScatterPlot`

`drawScatterPlot` (`EmbeddingPointWebGL.ts`) computes TWO widths: the fitted
logarithmic `curPointWidth` (lines 226-234), clamped into `[0.4, 5]`, and
the zoom-interpolated `zoomedPointWidth`/`cappedPointWidth` (lines 248-282),
a linear interpolation in log2-zoom space between 11 px (at `kMin = 0.5`)
and 3 px (at `kMax = 40`).  `Math.log`/`Math.log2` are transcendental, so
this corner of the embedding lives over `ℝ`. -/

noncomputable def scatterPointWidthRaw (scatterDotRadius svgHeight : ℝ)
    (pointCount : ℕ) : ℝ :=
  8.71682071 +
    (-0.337974871) * Real.log (scatterDotRadius * (svgHeight / 760) * pointCount)

/-- `curPointWidth` after `Math.min(5, ·)` then `Math.max(0.4, ·)`. -/
noncomputable def scatterPointWidth (scatterDotRadius svgHeight : ℝ)
    (pointCount : ℕ) : ℝ :=
  max 0.4 (min 5 (scatterPointWidthRaw scatterDotRadius svgHeight pointCount))

/-- `const epsilon = 1e-9`. -/
noncomputable def zoomEpsilon : ℝ := 1e-9

/-- `Math.log2(kMin + 1 + epsilon)` with `kMin = 0.5`. -/
noncomputable def zoomScaleFactorMin : ℝ := Real.logb 2 (0.5 + 1 + zoomEpsilon)

/-- `Math.log2(kMax + 1 + epsilon)` with `kMax = 40`. -/
noncomputable def zoomScaleFactorMax : ℝ := Real.logb 2 (40 + 1 + zoomEpsilon)

/-- `normalizedZoom` (lines 264-273): the raw normalized zoom factor,
clamped into `[0, 1]`. -/
noncomputable def zoomNormalized (k : ℝ) : ℝ :=
  max 0 (min 1
    (if zoomScaleFactorMax - zoomScaleFactorMin > zoomEpsilon then
      (Real.logb 2 (k + 1 + zoomEpsilon) - zoomScaleFactorMin) /
        (zoomScaleFactorMax - zoomScaleFactorMin)
     else if Real.logb 2 (k + 1 + zoomEpsilon) ≥ zoomScaleFactorMax then 1
     else 0))

/-- `zoomedPointWidth = maxPointSize - (maxPointSize - minPointSize) * normalizedZoom`
with `minPointSize = 3`, `maxPointSize = 11`. -/
noncomputable def zoomedPointWidth (k : ℝ) : ℝ := 11 - (11 - 3) * zoomNormalized k

/-- `cappedPointWidth = Math.min(zoomedPointWidth, maxPointSize)`. -/
noncomputable def cappedPointWidth (k : ℝ) : ℝ := min (zoomedPointWidth k) 11

theorem zoomScaleFactorMax_ge_two : (2 : ℝ) ≤ zoomScaleFactorMax := by
  have h4 : (2 : ℝ) ^ (2 : ℝ) = 4 := by
    rw [show (2 : ℝ) = ((2 : ℕ) : ℝ) by norm_num, Real.rpow_natCast]
    norm_num
  unfold zoomScaleFactorMax zoomEpsilon
  rw [Real.le_logb_iff_rpow_le (by norm_num) (by norm_num), h4]
  norm_num

theorem zoomScaleFactorMin_le_one : zoomScaleFactorMin ≤ 1 := by
  unfold zoomScaleFactorMin zoomEpsilon
  rw [Real.logb_le_iff_le_rpow (by norm_num) (by norm_num), Real.rpow_one]
  norm_num

theorem zoomScaleRange_gt_eps :
    zoomScaleFactorMax - zoomScaleFactorMin > zoomEpsilon := by
  have h1 := zoomScaleFactorMax_ge_two
  have h2 := zoomScaleFactorMin_le_one
  unfold zoomEpsilon
  norm_num
  linarith

/-- C8 (counterexample).  The claim says one point width is computed from one
logarithmic formula and clamped to one fixed `[min, max]` range.  At zoom
`k = 0.5` the zoom-interpolated render width is exactly 11 px — outside the
`[0.4, 5]` range enforced on `curPointWidth` — so the source uses two
different formulas with two different ranges, not one. -/
theorem point_width_two_ranges_counterexample :
    cappedPointWidth 0.5 = 11 ∧ ¬ cappedPointWidth 0.5 ≤ 5 := by
  have h0 : zoomNormalized 0.5 = 0 := by
    unfold zoomNormalized
    rw [if_pos zoomScaleRange_gt_eps]
    have hself : Real.logb 2 ((0.5 : ℝ) + 1 + zoomEpsilon) - zoomScaleFactorMin
        = 0 := by
      unfold zoomScaleFactorMin
      exact sub_self _
    rw [hself, zero_div]
    norm_num
  have hcap : cappedPointWidth 0.5 = 11 := by
    unfold cappedPointWidth zoomedPointWidth
    rw [h0]
    norm_num
  exact ⟨hcap, by rw [hcap]; norm_num⟩

/-- C8 (amended).  Each of the two width computations stays within its own
fixed range: the fitted logarithmic `curPointWidth` is clamped into
`[0.4, 5]` for every dot radius, viewport height and point count, and the
zoom-interpolated `cappedPointWidth` lies in `[3, 11]` for every zoom scale;
there is no single shared range. -/
theorem point_width_two_ranges (scatterDotRadius svgHeight : ℝ)
    (pointCount : ℕ) (k : ℝ) :
    0.4 ≤ scatterPointWidth scatterDotRadius svgHeight pointCount ∧
    scatterPointWidth scatterDotRadius svgHeight pointCount ≤ 5 ∧
    3 ≤ cappedPointWidth k ∧ cappedPointWidth k ≤ 11 := by
  refine ⟨le_max_left _ _, ?_, ?_, min_le_right _ _⟩
  · exact max_le (by norm_num) (min_le_left _ _)
  · have hz1 : zoomNormalized k ≤ 1 := by
      unfold zoomNormalized
      exact max_le (by norm_num) (min_le_left _ _)
    unfold cappedPointWidth zoomedPointWidth
    apply le_min
    · linarith
    · norm_num

/-! ### Claim C9: unrecognized worker commands are logged and ignored -/

inductive WorkerEffect : Type where
  | startLoadDataEff (url : String)
  | postModelStatusEff
  | startQueryEff (query : String)
  | logUnknownEff (command : String)
  deriving Repr, DecidableEq, Inhabited

/-- Model of the loader worker's `self.onmessage` (`part_001` 54-70):
`startLoadData` kicks off the fetch/stream pipeline (an asynchronous effect
that leaves the dispatch-time state untouched); anything else hits the
`default` arm, which only logs `console.error('Worker: unknown message')`. -/
def loaderWorkerOnMessage (st : LoaderState) (command : String) (url : String) :
    LoaderState × List WorkerEffect :=
  if command = "startLoadData" then (st, [WorkerEffect.startLoadDataEff url])
  else (st, [WorkerEffect.logUnknownEff command])

/-- The search worker's module state (`search.ts` 11-16): the Flexsearch
index (abstracted to its sequence of `index.add(id, text)` calls), the
semantic embeddings store, and the model-loaded flag. -/
structure SearchWorkerState : Type where
  indexEntries : List (ℕ × String)
  embeddings : List (ℕ × List JVal)
  isModelLoaded : Bool
  deriving Repr, DecidableEq, Inhabited

/-- Model of `addPoints` (`search.ts` 80-120): index the prompt when it is
truthy (non-empty), and store the embedding when it is an array headed by a
number (the loader always assigns an array, so the string re-parse arm is
dead; `currSummary` is out of the modelled fields and is elided from the
indexed text). -/
def searchAddPoints (st : SearchWorkerState) (pts : List PromptPoint) :
    SearchWorkerState :=
  pts.foldl (fun acc p =>
    let acc1 :=
      if p.prompt ≠ "" then
        { acc with indexEntries := acc.indexEntries ++ [(p.id, p.prompt)] }
      else acc
    if isNumHead p.currEmbedding then
      { acc1 with embeddings := acc1.embeddings ++ [(p.id, p.currEmbedding)] }
    else acc1) st

/-- Model of the search worker's `self.onmessage` (`search.ts` 50-74):
`checkModelStatus` lazily loads the model and posts the status,
`addPoints` indexes the batch, `startQuery` runs the (read-only) hybrid
search, and the `default` arm logs `console.error('Worker: unknown message')`
without touching any state. -/
def searchWorkerOnMessage (st : SearchWorkerState) (command : String)
    (pts : List PromptPoint) (query : String) :
    SearchWorkerState × List WorkerEffect :=
  if command = "checkModelStatus" then
    if st.isModelLoaded then (st, [])
    else ({ st with isModelLoaded := true }, [WorkerEffect.postModelStatusEff])
  else if command = "addPoints" then (searchAddPoints st pts, [])
  else if command = "startQuery" then (st, [WorkerEffect.startQueryEff query])
  else (st, [WorkerEffect.logUnknownEff command])

/-- C9.  For every command tag outside the recognized sets, each of the three
dispatchers — the loader worker's `onmessage` (`startLoadData`), the
`Embedding` class's `loaderWorkerMessageHandler` (`transferLoadData`), and
the search worker's `onmessage` (`checkModelStatus`/`addPoints`/`startQuery`)
— returns its state unchanged and only emits the unknown-command log; an
unrecognized command is never fatal (the handlers are total functions). -/
theorem unknown_commands_ignored (command : String) (stL : LoaderState)
    (stE : EmbeddingState) (stS : SearchWorkerState) (url : String)
    (payload : LoaderBatch) (pts : List PromptPoint) (query : String)
    (h1 : command ≠ "startLoadData")
    (h2 : command ≠ "transferLoadData")
    (h3 : command ≠ "checkModelStatus")
    (h4 : command ≠ "addPoints")
    (h5 : command ≠ "startQuery") :
    loaderWorkerOnMessage stL command url =
      (stL, [WorkerEffect.logUnknownEff command]) ∧
    loaderWorkerMessageHandler stE command payload =
      (stE, [RenderAction.logUnknownAct command]) ∧
    searchWorkerOnMessage stS command pts query =
      (stS, [WorkerEffect.logUnknownEff command]) := by
  refine ⟨?_, ?_, ?_⟩
  · simp [loaderWorkerOnMessage, h1]
  · simp [loaderWorkerMessageHandler, h2]
  · simp [searchWorkerOnMessage, h3, h4, h5]

/-- The search worker's state at module load. -/
def searchStateA : SearchWorkerState :=
  { indexEntries := [], embeddings := [], isModelLoaded := false }

/-- Witness for C9: the command `"bogusCommand"` is outside every recognized
set, and the theorem applies at concrete states. -/
theorem unknown_commands_ignored_witness :
    ("bogusCommand" : String) ≠ "startLoadData" ∧
    ("bogusCommand" : String) ≠ "transferLoadData" ∧
    ("bogusCommand" : String) ≠ "checkModelStatus" ∧
    ("bogusCommand" : String) ≠ "addPoints" ∧
    ("bogusCommand" : String) ≠ "startQuery" ∧
    (loaderWorkerOnMessage initLoaderState "bogusCommand" "data.ndjson" =
        (initLoaderState, [WorkerEffect.logUnknownEff "bogusCommand"]) ∧
      loaderWorkerMessageHandler embStateC "bogusCommand" batchB =
        (embStateC, [RenderAction.logUnknownAct "bogusCommand"]) ∧
      searchWorkerOnMessage searchStateA "bogusCommand" [] "query" =
        (searchStateA, [WorkerEffect.logUnknownEff "bogusCommand"])) :=
  ⟨by decide, by decide, by decide, by decide, by decide,
   unknown_commands_ignored "bogusCommand" initLoaderState embStateC searchStateA
     "data.ndjson" batchB [] "query" (by decide) (by decide) (by decide)
     (by decide) (by decide)⟩

end AIMap
